import Mathlib

/-!
Verification of the shift-scheduling engine of `timeplan-manager`
(`src/lib/data-export.ts`, class `ScheduleGenerator`).

Modelling conventions for the shallow embedding:

* Clock times ("HH:MM" strings in TypeScript) are represented by their value
  in minutes since midnight, as a rational number.  Every consumer of a time
  string in the source first runs it through `timeToMinutes`, and every
  produced time string comes from `minutesToTime`; the two are mutually
  inverse on the values that occur, so the minute value is a faithful
  representation.  Fractional minute values (which the source represents as
  strings such as "10:33.5" and parses back with `Number`) are rational
  numbers here as well.
* Calendar dates ("YYYY-MM-DD" strings) are represented by a natural day
  index.  The source only ever compares date strings for equality and builds
  them by adding whole days to the week-start date, which `Date.setDate`
  performs correctly across month boundaries, so successive dates map to
  successive naturals.
* JavaScript numbers are rationals (`ℚ`).  The arithmetic the engine performs
  (sums, differences, division by small constants, comparisons) is modelled
  exactly; IEEE-754 rounding is not modelled.
* `Record<string, T>` objects are insertion-ordered association lists
  (`List (String × T)`); `setEntry` models property assignment (updating in
  place, appending new keys at the end) and `lookupD` models indexing with a
  default for the `x ?? d` / `x || d` idioms.
-/

namespace TPM

/-- One entry of `Pharmacist.fixedDayPatterns` (`src/types/index.ts`). -/
structure FixedDayPattern where
  dayOfWeek : String
  patternId : String
deriving DecidableEq, Repr

/-- The `Pharmacist` record of `src/types/index.ts` (the spec's Worker).
The `email` field is never read by the engine and is omitted. -/
structure Pharmacist where
  id : String
  name : String
  weeklyHours : ℚ
  freeDay : String
  freeSaturdayWeek : Option ℕ
  isActive : Bool
  fixedDayPatterns : Option (List FixedDayPattern)
deriving DecidableEq, Repr

/-- A morning or afternoon sub-shift window of a fixed pattern. -/
structure ShiftWindow where
  startTime : ℚ
  endTime : ℚ
deriving DecidableEq, Repr

/-- The `FixedShiftPattern` record of `src/types/index.ts`.
`shortForm` is display-only and omitted. -/
structure FixedShiftPattern where
  id : String
  name : String
  morningShift : ShiftWindow
  afternoonShift : ShiftWindow
deriving DecidableEq, Repr

/-- The `StaffingRequirement` record of `src/types/index.ts`. -/
structure StaffingRequirement where
  id : String
  startTime : ℚ
  endTime : ℚ
  requiredPharmacists : ℕ
deriving DecidableEq, Repr

/-- The `PharmacyRules` record of `src/types/index.ts`.  The `id`/`name`
fields are never read by the engine and are omitted. -/
structure PharmacyRules where
  openingTime : ℚ
  closingTime : ℚ
  breakStartTime : ℚ
  breakEndTime : ℚ
  maxHoursPerShift : ℚ
  maxHoursPerDay : ℚ
  fixedShiftPatterns : Option (List FixedShiftPattern)
  staffingRequirements : List StaffingRequirement
deriving DecidableEq, Repr

/-- The `'morning' | 'afternoon' | 'full'` union of `Shift.type`. -/
inductive ShiftType where
  | morning
  | afternoon
  | full
deriving DecidableEq, Repr

/-- The `Shift` record of `src/types/index.ts`. -/
structure Shift where
  id : String
  pharmacistId : String
  date : ℕ
  startTime : ℚ
  endTime : ℚ
  type : ShiftType
  isBreakTime : Bool
  patternId : Option String
deriving DecidableEq, Repr

/-- The `Schedule` record of `src/types/index.ts` (the spec's WeekSchedule);
the optional `warnings` map is carried separately by the functions below,
exactly as `validateSchedule` returns it. -/
structure Schedule where
  id : String
  weekStart : ℕ
  weekEnd : ℕ
  shifts : List Shift
deriving DecidableEq, Repr

/-- Indexing a `Record<string, α>` with a default, modelling `m[k] ?? d`
(and `m[k] || d` for the value types used here, whose only falsy value is
the default actually supplied).  The key type is generic because the
coverage tracker is keyed by the requirement window (the source keys it by
the `"start-end"` string, which identifies exactly the window). -/
def lookupD {κ α : Type} [DecidableEq κ] (m : List (κ × α)) (k : κ) (d : α) : α :=
  match m.lookup k with
  | some v => v
  | none => d

/-- Property assignment `m[k] = v` on a `Record<string, α>`: updates the
existing entry in place, or appends a new key at the end (JavaScript objects
preserve insertion order of string keys). -/
def setEntry {κ α : Type} [DecidableEq κ] (m : List (κ × α)) (k : κ) (v : α) : List (κ × α) :=
  match m with
  | [] => [(k, v)]
  | (k₁, v₁) :: rest => if k₁ = k then (k, v) :: rest else (k₁, v₁) :: setEntry rest k v

/-- `calculateShiftHours` (data-export.ts line 2136): duration in hours
between two clock times; the `Date` round-trip in the source computes exactly
the difference of the minute values divided by 60. -/
def calculateShiftHours (startTime endTime : ℚ) : ℚ :=
  (endTime - startTime) / 60

/-- Left-pads a digit string to two characters, modelling
`toString().padStart(2, '0')`. -/
def pad2 (s : String) : String :=
  if s.length < 2 then "0" ++ s else s

/-- Rendering of a JavaScript number.  Integral values print like JS; the
non-integral fallback prints the rational literally (the claims verified in
this file only evaluate it on integral values). -/
def jsNumStr (q : ℚ) : String :=
  if q.den = 1 then toString q.num else toString q

/-- `Math.round`: round half toward positive infinity. -/
def jsRound (q : ℚ) : ℤ :=
  ⌊q + 1/2⌋

/-- `minutesToTime` (data-export.ts line 1934): `HH:MM` rendering of a
minute value via `Math.floor(m / 60)` and `m % 60`. -/
def minutesToTime (m : ℚ) : String :=
  pad2 (toString (⌊m / 60⌋ : ℤ)) ++ ":" ++ pad2 (jsNumStr (m - 60 * (⌊m / 60⌋ : ℤ)))

/-- `x.toFixed(1)` for a nonnegative tenth-scaled natural. -/
def toFixed1Nat (n : ℕ) : String :=
  toString (n / 10) ++ "." ++ toString (n % 10)

/-- `x.toFixed(1)`: one-decimal rendering, ties rounded away from zero. -/
def toFixed1 (q : ℚ) : String :=
  if q < 0 then "-" ++ toFixed1Nat (jsRound (-q * 10)).toNat
  else toFixed1Nat (jsRound (q * 10)).toNat

/-- `isFreeDay` (data-export.ts lines 556-566): the legacy `freeDay` string
matches, or a `fixedDayPatterns` entry marks this day as `FREE_DAY`. -/
def isFreeDay (pharmacist : Pharmacist) (dayName : String) : Bool :=
  pharmacist.freeDay == dayName ||
    (match pharmacist.fixedDayPatterns with
     | some l => l.any (fun p => p.patternId == "FREE_DAY" && p.dayOfWeek == dayName)
     | none => false)

/-- `pharmacist.freeDay || pharmacist.fixedDayPatterns?.some(p => p.patternId
=== 'FREE_DAY')` (data-export.ts lines 1229, 2313): JavaScript truthiness of
the legacy free-day string (empty string is falsy). -/
def hasFreeDay (pharmacist : Pharmacist) : Bool :=
  pharmacist.freeDay != "" ||
    (match pharmacist.fixedDayPatterns with
     | some l => l.any (fun p => p.patternId == "FREE_DAY")
     | none => false)

/-- Daily-hours computation of the Part-Time Allocator, translated from
`createShiftAssignments` (data-export.ts lines 1239-1265): last working day
gets all remaining hours, earlier days get the daily target, adjusted when
the remaining budget is short. -/
def hoursToAssignTodayRaw (remainingHours : ℚ) (remainingWorkingDays : ℤ)
    (weeklyHoursTotal : ℚ) (workingDaysPerWeek : ℕ) : ℚ :=
  if remainingWorkingDays = 1 then remainingHours
  else if remainingHours ≥
      weeklyHoursTotal / (workingDaysPerWeek : ℚ) * ((remainingWorkingDays : ℚ) - 1) +
        weeklyHoursTotal / (workingDaysPerWeek : ℚ) then
    weeklyHoursTotal / (workingDaysPerWeek : ℚ)
  else if remainingHours >
      weeklyHoursTotal / (workingDaysPerWeek : ℚ) * ((remainingWorkingDays : ℚ) - 1) then
    remainingHours -
      weeklyHoursTotal / (workingDaysPerWeek : ℚ) * ((remainingWorkingDays : ℚ) - 1)
  else max 0.5 (remainingHours / (remainingWorkingDays : ℚ))

/-- The daily-hours value actually used, including the final minimum-
assignment clamp of data-export.ts lines 1267-1272 (`< 0.1` becomes `0.5`). -/
def hoursToAssignToday (remainingHours : ℚ) (remainingWorkingDays : ℤ)
    (weeklyHoursTotal : ℚ) (workingDaysPerWeek : ℕ) : ℚ :=
  let raw := hoursToAssignTodayRaw remainingHours remainingWorkingDays
    weeklyHoursTotal workingDaysPerWeek
  if raw < 0.1 then 0.5 else raw

/-- The four-case formula exactly as claim C4 states it (spec §4.3): all
remaining hours on the last day; otherwise the daily target when the
remaining budget suffices for it plus the later days' targets; otherwise
`remainingHours − dailyTarget × (remainingWorkingDays − 1)` when positive;
otherwise `max(0.5, remainingHours / remainingWorkingDays)`. -/
def claimedDailyHours (remainingHours : ℚ) (remainingWorkingDays : ℤ)
    (weeklyHoursTotal : ℚ) (workingDaysPerWeek : ℕ) : ℚ :=
  if remainingWorkingDays = 1 then remainingHours
  else if remainingHours ≥
      weeklyHoursTotal / (workingDaysPerWeek : ℚ) +
        weeklyHoursTotal / (workingDaysPerWeek : ℚ) * ((remainingWorkingDays : ℚ) - 1) then
    weeklyHoursTotal / (workingDaysPerWeek : ℚ)
  else if remainingHours -
      weeklyHoursTotal / (workingDaysPerWeek : ℚ) * ((remainingWorkingDays : ℚ) - 1) > 0 then
    remainingHours -
      weeklyHoursTotal / (workingDaysPerWeek : ℚ) * ((remainingWorkingDays : ℚ) - 1)
  else max 0.5 (remainingHours / (remainingWorkingDays : ℚ))

/-- The raw branch cascade agrees with the claim's four-case formula. -/
theorem hoursToAssignTodayRaw_eq_claimed (r : ℚ) (rwd : ℤ) (wh : ℚ) (wdpw : ℕ) :
    hoursToAssignTodayRaw r rwd wh wdpw = claimedDailyHours r rwd wh wdpw := by
  unfold hoursToAssignTodayRaw claimedDailyHours
  split_ifs <;> first
    | rfl
    | (exfalso; push_neg at *; linarith)

/-- C4 (corrected): the claim's formula disagrees with the code on inputs
whose formula value falls below the 0.1-hour floor — with no remaining hours
on the last working day the code assigns 0.5 h, not the formula's 0 h. -/
theorem c4_counterexample :
    hoursToAssignToday 0 1 20 5 = 0.5 ∧ claimedDailyHours 0 1 20 5 = 0 ∧
      hoursToAssignToday 0 1 20 5 ≠ claimedDailyHours 0 1 20 5 := by
  refine ⟨by norm_num [hoursToAssignToday, hoursToAssignTodayRaw],
    by norm_num [claimedDailyHours], ?_⟩
  norm_num [hoursToAssignToday, hoursToAssignTodayRaw, claimedDailyHours]

/-- C4 (amended): the hours targeted for a part-time worker's day equal the
claim's four-case formula, except that a formula value below 0.1 h is
replaced by the minimum assignment of 0.5 h. -/
theorem c4_amended (r : ℚ) (rwd : ℤ) (wh : ℚ) (wdpw : ℕ) :
    hoursToAssignToday r rwd wh wdpw =
      (if claimedDailyHours r rwd wh wdpw < 0.1 then 0.5
       else claimedDailyHours r rwd wh wdpw) := by
  rw [hoursToAssignToday, hoursToAssignTodayRaw_eq_claimed]

/-- The initial remaining-working-days ledger for part-time pharmacists,
translated from `generateWeekScheduleWithRotation` (data-export.ts lines
2310-2317): 5 days if the worker has any configured free day (JavaScript
truthiness of the `freeDay` string), 6 otherwise. -/
def initPartTimeWorkingDaysRemaining (pharmacists : List Pharmacist) : List (String × ℤ) :=
  (pharmacists.filter (fun p => p.weeklyHours < 40)).foldl
    (fun acc p => setEntry acc p.id (if hasFreeDay p then (5 : ℤ) else 6)) []

/-- The part-time worker of claim C2 / spec Scenario B: 20 weekly hours,
free day "Sunday". -/
def c2Worker : Pharmacist :=
  { id := "w1", name := "Worker", weeklyHours := 20, freeDay := "Sunday",
    freeSaturdayWeek := none, isActive := true, fixedDayPatterns := none }

/-- C2 (code bug): for a part-time worker with `weeklyHours = 20` and free
day "Sunday" — a day outside the Monday-Saturday work week, so all six
workdays are working days — the remaining-working-days ledger starts at 5,
not at the 6 the claim (spec Scenario B) requires: the code treats any
configured free-day string as removing a workday, without checking that the
free day is one of the six workdays. -/
theorem c2_ledger_starts_at_five :
    lookupD (initPartTimeWorkingDaysRemaining [c2Worker]) "w1" 0 = 5 ∧
      lookupD (initPartTimeWorkingDaysRemaining [c2Worker]) "w1" 0 ≠ 6 := by
  constructor <;> decide

/-- `0 ≤ q - 1440⌊q/1440⌋ < 1440`: the midnight wrap performed by rendering
a `Date` with `toTimeString` and parsing the clock back. -/
def jsTimeWrap (q : ℚ) : ℚ :=
  q - 1440 * (⌊q / 1440⌋ : ℤ)

/-- `adaptBreakDuration` (data-export.ts lines 2354-2371): clamps the break
duration into [30 min, 2 h 30 min] by rewriting `breakEndTime` in place on
the caller's `PharmacyRules` object. -/
def adaptBreakDuration (rules : PharmacyRules) : PharmacyRules :=
  if (rules.breakEndTime - rules.breakStartTime) / 60 < 0.5 then
    { rules with breakEndTime := jsTimeWrap (rules.breakStartTime + 30) }
  else if (rules.breakEndTime - rules.breakStartTime) / 60 > 2.5 then
    { rules with breakEndTime := jsTimeWrap (rules.breakStartTime + 150) }
  else rules

/-- The caller-visible state of the inputs after `generateSchedule`
(data-export.ts lines 103-161) returns.  The generator stores the caller's
`pharmacyRules` object by reference and `adaptBreakDuration` is its only
write to it (lines 2363 and 2368 assign `this.pharmacyRules.breakEndTime`);
no field of any `Pharmacist` object is ever assigned anywhere in the class
(the constructor builds a fresh filtered array, and every `Shift`/`Schedule`
mutated later is created inside the run).  The pair returned here is
therefore the post-call value of the worker list and the rules object. -/
def generateScheduleFinalState (pharmacists : List Pharmacist)
    (rules : PharmacyRules) : List Pharmacist × PharmacyRules :=
  (pharmacists, adaptBreakDuration rules)

/-- Rules with a 4-hour configured break, triggering the clamp. -/
def c9LongBreakRules : PharmacyRules :=
  { openingTime := 540, closingTime := 1170, breakStartTime := 720,
    breakEndTime := 960, maxHoursPerShift := 8, maxHoursPerDay := 9,
    fixedShiftPatterns := none, staffingRequirements := [] }

/-- C9 (corrected): the claim that `generateSchedule` leaves every field of
the rules unchanged is false — with a 4-hour configured break the call
rewrites `breakEndTime` (720 + 150 = 870, was 960). -/
theorem c9_counterexample :
    (generateScheduleFinalState [] c9LongBreakRules).2.breakEndTime ≠
      c9LongBreakRules.breakEndTime ∧
    (generateScheduleFinalState [] c9LongBreakRules).2.breakEndTime = 870 := by
  constructor <;>
    norm_num [generateScheduleFinalState, adaptBreakDuration, jsTimeWrap, c9LongBreakRules]

/-- C9 (amended): the worker list is unchanged by `generateSchedule`, and
the rules are unchanged except that `breakEndTime` may be rewritten by the
break-duration clamp; when the configured break duration already lies in
[30 min, 2 h 30 min] the rules are fully unchanged. -/
theorem c9_amended (ps : List Pharmacist) (rules : PharmacyRules) :
    (generateScheduleFinalState ps rules).1 = ps ∧
    (generateScheduleFinalState ps rules).2 =
      { rules with breakEndTime := (adaptBreakDuration rules).breakEndTime } ∧
    (0.5 ≤ (rules.breakEndTime - rules.breakStartTime) / 60 →
      (rules.breakEndTime - rules.breakStartTime) / 60 ≤ 2.5 →
      generateScheduleFinalState ps rules = (ps, rules)) := by
  refine ⟨rfl, ?_, ?_⟩
  · show adaptBreakDuration rules = _
    unfold adaptBreakDuration
    split_ifs <;> rfl
  · intro h₁ h₂
    show (ps, adaptBreakDuration rules) = (ps, rules)
    unfold adaptBreakDuration
    split_ifs with hlo hhi
    · exact absurd h₁ (by linarith)
    · exact absurd h₂ (by linarith)
    · rfl

/-- Rules with an in-range (90-minute) break, for the C9 witness. -/
def c9InRangeRules : PharmacyRules :=
  { openingTime := 540, closingTime := 1170, breakStartTime := 750,
    breakEndTime := 840, maxHoursPerShift := 8, maxHoursPerDay := 9,
    fixedShiftPatterns := none, staffingRequirements := [] }

/-- Witness for `c9_amended` at a concrete in-range rules value. -/
theorem c9_amended_witness :
    generateScheduleFinalState [] c9InRangeRules = ([], c9InRangeRules) :=
  (c9_amended [] c9InRangeRules).2.2 (by norm_num [c9InRangeRules])
    (by norm_num [c9InRangeRules])

/-- String form of the `Shift.type` union members. -/
def shiftTypeStr : ShiftType → String
  | ShiftType.morning => "morning"
  | ShiftType.afternoon => "afternoon"
  | ShiftType.full => "full"

/-- Distinct keys of a list in first-occurrence order: the key sequence of a
JavaScript `Set` (and of a `Record` built by upserts) over the list. -/
def firstOccurrences : List String → List String
  | [] => []
  | x :: xs => x :: firstOccurrences (xs.filter (fun y => y ≠ x))
termination_by l => l.length
decreasing_by
  simpa using Nat.lt_succ_of_le (List.length_filter_le _ xs)

/-- Number of distinct pharmacist ids whose shift covers instant `t`
(`validateSchedule`, data-export.ts lines 442-454: a `Set` of ids collected
over shifts with `shiftStart <= t && shiftEnd > t`). -/
def countWorkingAt (dayShifts : List Shift) (t : ℚ) : ℕ :=
  (firstOccurrences ((dayShifts.filter
    (fun s => s.startTime ≤ t && t < s.endTime)).map (fun s => s.pharmacistId))).length

/-- The 30-minute sampling instants of a requirement window: the values taken
by `checkTime` in the loop `for (checkTime = reqStart; checkTime < reqEnd;
checkTime += 30)` (data-export.ts line 441). -/
def checkTimes (reqStart reqEnd : ℚ) : List ℚ :=
  (List.range (⌈(reqEnd - reqStart) / 30⌉.toNat)).map
    (fun k : ℕ => reqStart + 30 * (k : ℚ))

/-- The `InsufficientPeriod` record of `validateSchedule` (lines 430-434);
the source's `end` field is called `stop` here (`end` is reserved). -/
structure InsufficientPeriod where
  start : ℚ
  stop : ℚ
  minCount : ℕ
deriving DecidableEq, Repr

/-- The scanning loop of `validateSchedule` (lines 436-490): walk the
sampling instants, extending the open insufficient period (tracking its
minimum count) while coverage stays below `required`, closing it when
coverage recovers, and flushing a still-open period (clamped to the
requirement end) when the instants run out. -/
def insufficientPeriodsLoop (cnt : ℚ → ℕ) (required : ℕ) (reqEnd : ℚ) :
    List ℚ → Option InsufficientPeriod → List InsufficientPeriod
  | [], cur =>
    match cur with
    | some p => [{ p with stop := min p.stop reqEnd }]
    | none => []
  | t :: ts, cur =>
    if cnt t < required then
      match cur with
      | some p =>
        insufficientPeriodsLoop cnt required reqEnd ts
          (some { start := p.start, stop := min (t + 30) reqEnd,
                  minCount := min p.minCount (cnt t) })
      | none =>
        insufficientPeriodsLoop cnt required reqEnd ts
          (some { start := t, stop := min (t + 30) reqEnd, minCount := cnt t })
    else
      match cur with
      | some p => p :: insufficientPeriodsLoop cnt required reqEnd ts none
      | none => insufficientPeriodsLoop cnt required reqEnd ts none

/-- The coverage warning string of data-export.ts lines 504-506. -/
def insufficientCoverageWarning (periodStart periodStop reqStart reqEnd : ℚ)
    (minCount required : ℕ) : String :=
  let ps := minutesToTime periodStart
  let pe := minutesToTime periodStop
  let rs := minutesToTime reqStart
  let re := minutesToTime reqEnd
  s!"Insufficient coverage {ps}-{pe}: {minCount}/{required} (requirement: {rs}-{re})"

/-- Coverage warnings of one staffing requirement for one day's shifts,
translated from the requirement loop body of `validateSchedule`
(data-export.ts lines 423-509). -/
def coverageWarningsForRequirement (dayShifts : List Shift)
    (requirement : StaffingRequirement) : List String :=
  let reqStart := requirement.startTime
  let reqEnd := requirement.endTime
  let required := requirement.requiredPharmacists
  let periods := insufficientPeriodsLoop (countWorkingAt dayShifts) required reqEnd
    (checkTimes reqStart reqEnd) none
  periods.filterMap (fun period =>
    let periodStart := max period.start reqStart
    let periodStop := min period.stop reqEnd
    if periodStart < periodStop then
      some (insufficientCoverageWarning periodStart periodStop reqStart reqEnd
        period.minCount required)
    else none)

/-- `pharmacist?.name || shift.pharmacistId` (lines 522, 530, 540). -/
def pharmacistDisplayName (pharmacists : List Pharmacist) (pid : String) : String :=
  match pharmacists.find? (fun p => p.id == pid) with
  | some p => if p.name = "" then pid else p.name
  | none => pid

/-- Per-shift warnings of `validateSchedule` (lines 520-534): minimum
duration for morning/afternoon shifts, then the per-shift hour cap. -/
def shiftLevelWarnings (rules : PharmacyRules) (pharmacists : List Pharmacist)
    (shift : Shift) : List String :=
  let shiftHours := calculateShiftHours shift.startTime shift.endTime
  let nm := pharmacistDisplayName pharmacists shift.pharmacistId
  let ty := shiftTypeStr shift.type
  let hrs := toFixed1 shiftHours
  let maxShift := jsNumStr rules.maxHoursPerShift
  (if (shift.type = ShiftType.morning ∨ shift.type = ShiftType.afternoon) ∧ shiftHours < 2 then
    [s!"Shift too short: {nm} has a {ty} shift of {hrs}h (minimum: 2h)"]
  else []) ++
  (if shiftHours > rules.maxHoursPerShift then
    [s!"Shift exceeds max hours: {nm} works {hrs}h (max: {maxShift}h)"]
  else [])

/-- The `pharmacistDailyHours` record of lines 512-518 as observed by
`Object.entries` (line 538): keys in first-insertion order — the order of
each pharmacist's first shift of the day — each mapped to that pharmacist's
summed hours.  The upsert fold of the source builds exactly these entries. -/
def pharmacistDailyHoursEntries (dayShifts : List Shift) : List (String × ℚ) :=
  (firstOccurrences (dayShifts.map (fun s => s.pharmacistId))).map
    (fun pid =>
      (pid, ((dayShifts.filter (fun s => s.pharmacistId = pid)).map
        (fun s => calculateShiftHours s.startTime s.endTime)).sum))

/-- Daily hour-cap warnings of `validateSchedule` (lines 537-545). -/
def dailyHoursWarnings (rules : PharmacyRules) (pharmacists : List Pharmacist)
    (dayShifts : List Shift) : List String :=
  (pharmacistDailyHoursEntries dayShifts).filterMap (fun e =>
    if e.2 > rules.maxHoursPerDay then
      some (let nm := pharmacistDisplayName pharmacists e.1
            let hrs := toFixed1 e.2
            let maxDay := jsNumStr rules.maxHoursPerDay
            s!"Daily hours exceeded: {nm} works {hrs}h (max: {maxDay}h)")
    else none)

/-- All warnings of one day, in the emission order of `validateSchedule`:
coverage warnings per requirement, then per-shift warnings in shift order,
then daily totals in first-insertion order. -/
def dayWarningsFor (rules : PharmacyRules) (pharmacists : List Pharmacist)
    (dayShifts : List Shift) : List String :=
  (rules.staffingRequirements.flatMap
    (fun req => coverageWarningsForRequirement dayShifts req)) ++
  (dayShifts.flatMap (fun s => shiftLevelWarnings rules pharmacists s)) ++
  dailyHoursWarnings rules pharmacists dayShifts

/-- `validateSchedule` (data-export.ts lines 401-553): for each of the six
workdays, compute the day's warnings and record them under the day's date
only when the list is non-empty (lines 547-549). -/
def validateSchedule (rules : PharmacyRules) (pharmacists : List Pharmacist)
    (schedule : Schedule) : List (ℕ × List String) :=
  (List.range 6).filterMap (fun dayIndex =>
    let dateStr := schedule.weekStart + dayIndex
    let dayWarnings := dayWarningsFor rules pharmacists
      (schedule.shifts.filter (fun s => s.date = dateStr))
    if dayWarnings = [] then none else some (dateStr, dayWarnings))

/-- C10 (confirmed): the warnings map returned by `validateSchedule` stores
only non-empty lists, and every workday whose computed warning list is
non-empty appears as a key (so a date is a key iff it has at least one
warning, and warning-free days are absent keys). -/
theorem c10_warnings_map_keys (rules : PharmacyRules) (pharmacists : List Pharmacist)
    (schedule : Schedule) :
    (∀ e ∈ validateSchedule rules pharmacists schedule, e.2 ≠ []) ∧
    (∀ dayIndex : ℕ, dayIndex < 6 →
      dayWarningsFor rules pharmacists
          (schedule.shifts.filter (fun s => s.date = schedule.weekStart + dayIndex)) ≠ [] →
      (schedule.weekStart + dayIndex,
        dayWarningsFor rules pharmacists
          (schedule.shifts.filter (fun s => s.date = schedule.weekStart + dayIndex))) ∈
        validateSchedule rules pharmacists schedule) := by
  constructor
  · intro e he
    simp only [validateSchedule, List.mem_filterMap, List.mem_range] at he
    obtain ⟨i, _, hsome⟩ := he
    split_ifs at hsome with hnil
    exact (Option.some_injective _ hsome) ▸ hnil
  · intro i hi hne
    simp only [validateSchedule, List.mem_filterMap, List.mem_range]
    exact ⟨i, hi, by simp [hne]⟩

/-- Rules with one staffing requirement, used by concrete validator
witnesses. -/
def c10Rules : PharmacyRules :=
  { openingTime := 540, closingTime := 1170, breakStartTime := 750,
    breakEndTime := 840, maxHoursPerShift := 8, maxHoursPerDay := 9,
    fixedShiftPatterns := none,
    staffingRequirements :=
      [{ id := "r1", startTime := 540, endTime := 600, requiredPharmacists := 1 }] }

/-- An empty week starting at day index 100. -/
def c10Schedule : Schedule :=
  { id := "s", weekStart := 100, weekEnd := 105, shifts := [] }

/-- Witness for `c10_warnings_map_keys`: on an empty week against a staffing
requirement, Monday's non-empty warning list appears under Monday's date. -/
theorem c10_warnings_map_keys_witness :
    (c10Schedule.weekStart + 0,
      dayWarningsFor c10Rules []
        (c10Schedule.shifts.filter (fun s => s.date = c10Schedule.weekStart + 0))) ∈
      validateSchedule c10Rules [] c10Schedule :=
  (c10_warnings_map_keys c10Rules [] c10Schedule).2 0 (by decide)
    (by with_unfolding_all decide)

/-- `firstOccurrences` has the same members as its input. -/
theorem mem_firstOccurrences : ∀ (l : List String) (a : String),
    a ∈ firstOccurrences l ↔ a ∈ l := by
  intro l
  induction l using firstOccurrences.induct with
  | case1 => simp [firstOccurrences]
  | case2 x xs ih =>
    intro a
    rw [firstOccurrences]
    simp only [List.mem_cons, ih, List.mem_filter, decide_eq_true_eq]
    constructor
    · rintro (rfl | ⟨h, _⟩)
      · exact Or.inl rfl
      · exact Or.inr h
    · rintro (rfl | h)
      · exact Or.inl rfl
      · by_cases hx : a = x
        · exact Or.inl hx
        · exact Or.inr ⟨h, hx⟩

/-- `firstOccurrences` has no duplicates. -/
theorem nodup_firstOccurrences : ∀ l : List String, (firstOccurrences l).Nodup := by
  intro l
  induction l using firstOccurrences.induct with
  | case1 => simp [firstOccurrences]
  | case2 x xs ih =>
    rw [firstOccurrences]
    refine List.nodup_cons.mpr ⟨?_, ih⟩
    rw [mem_firstOccurrences]
    simp

/-- Permuting the input permutes the first-occurrence key list. -/
theorem firstOccurrences_perm {l₁ l₂ : List String} (h : l₁.Perm l₂) :
    (firstOccurrences l₁).Perm (firstOccurrences l₂) := by
  apply List.perm_of_nodup_nodup_toFinset_eq (nodup_firstOccurrences l₁)
    (nodup_firstOccurrences l₂)
  ext a
  simp [List.mem_toFinset, mem_firstOccurrences, h.mem_iff]

/-- The distinct-worker count at an instant ignores shift order. -/
theorem countWorkingAt_perm {d₁ d₂ : List Shift} (h : d₁.Perm d₂) (t : ℚ) :
    countWorkingAt d₁ t = countWorkingAt d₂ t := by
  unfold countWorkingAt
  exact (firstOccurrences_perm ((h.filter _).map _)).length_eq

/-- Coverage warnings ignore shift order entirely (they depend on the shift
list only through the per-instant distinct counts). -/
theorem coverageWarningsForRequirement_perm {d₁ d₂ : List Shift} (h : d₁.Perm d₂)
    (req : StaffingRequirement) :
    coverageWarningsForRequirement d₁ req = coverageWarningsForRequirement d₂ req := by
  unfold coverageWarningsForRequirement
  rw [funext (countWorkingAt_perm h)]

/-- Permuting the day's shifts permutes the daily-hours entries. -/
theorem pharmacistDailyHoursEntries_perm {d₁ d₂ : List Shift} (h : d₁.Perm d₂) :
    (pharmacistDailyHoursEntries d₁).Perm (pharmacistDailyHoursEntries d₂) := by
  unfold pharmacistDailyHoursEntries
  have hfun : (fun pid => (pid, ((d₁.filter (fun s => s.pharmacistId = pid)).map
        (fun s => calculateShiftHours s.startTime s.endTime)).sum)) =
      (fun pid : String => (pid, ((d₂.filter (fun s => s.pharmacistId = pid)).map
        (fun s => calculateShiftHours s.startTime s.endTime)).sum)) := by
    funext pid
    rw [((h.filter _).map _).sum_eq]
  rw [hfun]
  exact (firstOccurrences_perm (h.map _)).map _

/-- Permuting the day's shifts permutes the day's warning list. -/
theorem dayWarningsFor_perm (rules : PharmacyRules) (pharmacists : List Pharmacist)
    {d₁ d₂ : List Shift} (h : d₁.Perm d₂) :
    (dayWarningsFor rules pharmacists d₁).Perm (dayWarningsFor rules pharmacists d₂) := by
  unfold dayWarningsFor
  refine List.Perm.append (List.Perm.append ?_ ?_) ?_
  · rw [funext (fun req => coverageWarningsForRequirement_perm h req)]
  · exact h.flatMap_right _
  · exact (pharmacistDailyHoursEntries_perm h).filterMap _

/-- A permutation sends empty lists to empty lists. -/
theorem perm_eq_nil_iff {α : Type} {l₁ l₂ : List α} (h : l₁.Perm l₂) :
    l₁ = [] ↔ l₂ = [] :=
  ⟨fun e => by subst e; exact h.symm.eq_nil ▸ rfl,
   fun e => by subst e; exact h.eq_nil ▸ rfl⟩

/-- `Forall₂` over two `filterMap`s of the same list, given a pointwise
option relation. -/
theorem forall₂_filterMap {α β : Type} (R : β → β → Prop) (f g : α → Option β) :
    ∀ l : List α, (∀ a ∈ l, (f a = none ↔ g a = none) ∧
      (∀ b c, f a = some b → g a = some c → R b c)) →
    List.Forall₂ R (l.filterMap f) (l.filterMap g) := by
  intro l
  induction l with
  | nil => intro _; simp [List.filterMap]
  | cons x xs ih =>
    intro hall
    have hx := hall x (List.mem_cons_self x xs)
    have hrest := ih (fun a ha => hall a (List.mem_cons_of_mem x ha))
    rw [List.filterMap_cons, List.filterMap_cons]
    cases hf : f x with
    | none => rw [hx.1.mp hf]; exact hrest
    | some b =>
      cases hg : g x with
      | none => exact absurd (hx.1.mpr hg) (by simp [hf])
      | some c => exact List.Forall₂.cons (hx.2 b c hf hg) hrest

/-- C6 (amended): `validateSchedule` is a pure function — calling it twice on
the same `Schedule` yields identical maps — and permuting the shift list
yields a warnings map with the same date keys, in the same order, whose
per-day warning lists are permutations of the originals (rather than the
identical lists the claim states). -/
theorem c6_amended (rules : PharmacyRules) (pharmacists : List Pharmacist)
    (s : Schedule) (shifts₂ : List Shift) (hp : shifts₂.Perm s.shifts) :
    validateSchedule rules pharmacists s = validateSchedule rules pharmacists s ∧
    List.Forall₂ (fun a b => a.1 = b.1 ∧ a.2.Perm b.2)
      (validateSchedule rules pharmacists { s with shifts := shifts₂ })
      (validateSchedule rules pharmacists s) := by
  refine ⟨rfl, ?_⟩
  unfold validateSchedule
  apply forall₂_filterMap
  intro i _
  have hperm : (dayWarningsFor rules pharmacists
      (shifts₂.filter (fun sh => sh.date = s.weekStart + i))).Perm
      (dayWarningsFor rules pharmacists
        (s.shifts.filter (fun sh => sh.date = s.weekStart + i))) :=
    dayWarningsFor_perm rules pharmacists (hp.filter _)
  constructor
  · simp only []
    split_ifs with h₁ h₂ h₂ <;>
      simp_all [perm_eq_nil_iff hperm]
  · intro b c hb hc
    simp only [] at hb hc
    split_ifs at hb hc
    cases Option.some_injective _ hb
    cases Option.some_injective _ hc
    exact ⟨rfl, hperm⟩

/-- Rules with no staffing requirements and an 8-hour shift cap, used by the
C6 counterexample. -/
def c6Rules : PharmacyRules :=
  { openingTime := 540, closingTime := 1200, breakStartTime := 750,
    breakEndTime := 840, maxHoursPerShift := 8, maxHoursPerDay := 24,
    fixedShiftPatterns := none, staffingRequirements := [] }

/-- An 11-hour morning shift of worker "pa" (exceeds the 8-hour cap). -/
def c6ShiftA : Shift :=
  { id := "sha", pharmacistId := "pa", date := 100, startTime := 540,
    endTime := 1200, type := ShiftType.morning, isBreakTime := false,
    patternId := none }

/-- An 11-hour morning shift of worker "pb" (exceeds the 8-hour cap). -/
def c6ShiftB : Shift :=
  { id := "shb", pharmacistId := "pb", date := 100, startTime := 540,
    endTime := 1200, type := ShiftType.morning, isBreakTime := false,
    patternId := none }

/-- The week holding the two over-long shifts in order A, B. -/
def c6Schedule1 : Schedule :=
  { id := "s", weekStart := 100, weekEnd := 105, shifts := [c6ShiftA, c6ShiftB] }

/-- The same week with the two shifts swapped. -/
def c6Schedule2 : Schedule :=
  { id := "s", weekStart := 100, weekEnd := 105, shifts := [c6ShiftB, c6ShiftA] }

set_option maxRecDepth 4000 in
/-- C6 (counterexample): swapping two shifts — a permutation of the shift
list — changes the warnings map, because the two "Shift exceeds max hours"
strings are emitted in shift order; so validation is not order-independent
in the byte-identical sense the claim states. -/
theorem c6_counterexample :
    c6Schedule2.shifts.Perm c6Schedule1.shifts ∧
    validateSchedule c6Rules [] c6Schedule2 ≠ validateSchedule c6Rules [] c6Schedule1 := by
  constructor
  · with_unfolding_all decide
  · with_unfolding_all decide

set_option maxRecDepth 4000 in
/-- Witness for `c6_amended`: at the concrete swapped week the maps have
equal keys and per-day lists that are permutations of each other. -/
theorem c6_amended_witness :
    List.Forall₂ (fun a b => a.1 = b.1 ∧ a.2.Perm b.2)
      (validateSchedule c6Rules [] { c6Schedule1 with shifts := c6Schedule2.shifts })
      (validateSchedule c6Rules [] c6Schedule1) :=
  (c6_amended c6Rules [] c6Schedule1 c6Schedule2.shifts
    (by with_unfolding_all decide)).2

/-- Maximal groups of consecutive elements satisfying `p`, each returned as
(first element, remaining elements of the group); elements outside every
group are dropped. -/
def maximalRuns {α : Type} (p : α → Bool) : List α → List (α × List α)
  | [] => []
  | t :: ts =>
    if p t then (t, ts.takeWhile p) :: maximalRuns p (ts.dropWhile p)
    else maximalRuns p ts
termination_by l => l.length
decreasing_by
  · simpa using Nat.lt_succ_of_le (ts.dropWhile_sublist p).length_le
  · simp

/-- The insufficient period claim C5 describes for one maximal run of
under-staffed sampling steps: it starts at the run's first step, ends 30
minutes past its last step clipped to the requirement end, and records the
minimum count observed over the run. -/
def runPeriod (cnt : ℚ → ℕ) (reqEnd : ℚ) (run : ℚ × List ℚ) : InsufficientPeriod :=
  { start := run.1,
    stop := min (run.2.getLastD run.1 + 30) reqEnd,
    minCount := run.2.foldl (fun acc t => min acc (cnt t)) (cnt run.1) }

/-- The reference computation described by claim C5: sample the requirement
window at 30-minute steps, count distinct working ids at each step, group
consecutive under-staffed steps into maximal periods tracking the minimum
observed count, and emit exactly one warning per period, clipped to the
requirement boundaries. -/
def specCoverageWarnings (dayShifts : List Shift)
    (requirement : StaffingRequirement) : List String :=
  let reqStart := requirement.startTime
  let reqEnd := requirement.endTime
  let required := requirement.requiredPharmacists
  let cnt := countWorkingAt dayShifts
  (maximalRuns (fun t => cnt t < required) (checkTimes reqStart reqEnd)).map
    (fun run =>
      let period := runPeriod cnt reqEnd run
      insufficientCoverageWarning (max period.start reqStart) (min period.stop reqEnd)
        reqStart reqEnd period.minCount required)

/-- Skipping a sufficiently covered instant with no open period leaves the
loop state unchanged. -/
theorem insufficientPeriodsLoop_cons_of_neg (cnt : ℚ → ℕ) (required : ℕ)
    (reqEnd : ℚ) {t : ℚ} (ts : List ℚ) (hp : ¬ cnt t < required) :
    insufficientPeriodsLoop cnt required reqEnd (t :: ts) none =
      insufficientPeriodsLoop cnt required reqEnd ts none := by
  rw [insufficientPeriodsLoop, if_neg hp]

/-- Unrolling the scanning loop with an open period: the open period absorbs
the maximal under-staffed run at the head of the remaining instants, then is
flushed (clamped at the very end of the window) or closed. -/
theorem insufficientPeriodsLoop_some (cnt : ℚ → ℕ) (required : ℕ) (reqEnd : ℚ) :
    ∀ (ts : List ℚ) (s e₀ : ℚ) (m : ℕ),
    insufficientPeriodsLoop cnt required reqEnd ts (some ⟨s, e₀, m⟩) =
      (match ts.dropWhile (fun t => cnt t < required) with
       | [] =>
         [⟨s, min ((ts.takeWhile (fun t => cnt t < required)).foldl
            (fun _ t => min (t + 30) reqEnd) e₀) reqEnd,
           (ts.takeWhile (fun t => cnt t < required)).foldl
            (fun acc t => min acc (cnt t)) m⟩]
       | r :: rs =>
         ⟨s, (ts.takeWhile (fun t => cnt t < required)).foldl
            (fun _ t => min (t + 30) reqEnd) e₀,
           (ts.takeWhile (fun t => cnt t < required)).foldl
            (fun acc t => min acc (cnt t)) m⟩ ::
          insufficientPeriodsLoop cnt required reqEnd (r :: rs) none) := by
  intro ts
  induction ts with
  | nil => intro s e₀ m; rfl
  | cons t ts ih =>
    intro s e₀ m
    by_cases hp : cnt t < required
    · rw [insufficientPeriodsLoop, if_pos hp,
        List.dropWhile_cons_of_pos (by simpa using hp),
        List.takeWhile_cons_of_pos (by simpa using hp),
        List.foldl_cons, List.foldl_cons]
      exact ih s (min (t + 30) reqEnd) (min m (cnt t))
    · rw [insufficientPeriodsLoop, if_neg hp,
        List.dropWhile_cons_of_neg (by simpa using hp),
        List.takeWhile_cons_of_neg (by simpa using hp)]
      simp only [List.foldl_nil]
      rw [insufficientPeriodsLoop_cons_of_neg cnt required reqEnd ts hp]

/-- The accumulated period end after a run equals 30 minutes past the run's
last instant, clipped to the requirement end. -/
theorem foldl_stop_eq (reqEnd : ℚ) :
    ∀ (tl : List ℚ) (a : ℚ),
    tl.foldl (fun _ t => min (t + 30) reqEnd) (min (a + 30) reqEnd) =
      min (tl.getLastD a + 30) reqEnd := by
  intro tl
  induction tl with
  | nil => intro a; rfl
  | cons x xs ih => intro a; rw [List.foldl_cons, List.getLastD_cons]; exact ih x

/-- The scanning loop started with no open period produces exactly one
period per maximal under-staffed run, with the start, clipped end and
minimum count claim C5 describes. -/
theorem insufficientPeriodsLoop_none_eq (cnt : ℚ → ℕ) (required : ℕ) (reqEnd : ℚ) :
    ∀ ts : List ℚ,
    insufficientPeriodsLoop cnt required reqEnd ts none =
      (maximalRuns (fun t => cnt t < required) ts).map (runPeriod cnt reqEnd) := by
  intro ts
  induction ts using maximalRuns.induct (p := fun t => decide (cnt t < required)) with
  | case1 => rw [maximalRuns]; rfl
  | case2 t ts hp ih =>
    have hp₁ : cnt t < required := of_decide_eq_true hp
    rw [insufficientPeriodsLoop, if_pos hp₁, insufficientPeriodsLoop_some,
      maximalRuns, if_pos hp]
    split
    · rename_i heq
      rw [heq] at ih
      rw [heq, maximalRuns]
      simp only [List.map_cons, List.map_nil, runPeriod]
      rw [foldl_stop_eq, min_assoc, min_self]
    · rename_i r rs heq
      rw [heq] at ih
      rw [heq]
      simp only [List.map_cons]
      rw [ih]
      simp only [runPeriod]
      rw [foldl_stop_eq]
  | case3 t ts hp ih =>
    have hp₁ : ¬ cnt t < required := by simpa using hp
    rw [insufficientPeriodsLoop_cons_of_neg cnt required reqEnd ts hp₁,
      maximalRuns, if_neg hp, ih]

/-- Every maximal run, with its head restored, is a sublist of the scanned
list. -/
theorem maximalRuns_sublist {α : Type} (p : α → Bool) :
    ∀ l : List α, ∀ r ∈ maximalRuns p l, (r.1 :: r.2).Sublist l := by
  intro l
  induction l using maximalRuns.induct (p := p) with
  | case1 => intro r hr; rw [maximalRuns] at hr; simp at hr
  | case2 t ts hp ih =>
    intro r hr
    rw [maximalRuns, if_pos hp] at hr
    rcases List.mem_cons.mp hr with rfl | hr₂
    · exact (ts.takeWhile_sublist p).cons₂ t
    · exact ((ih r hr₂).trans (ts.dropWhile_sublist p)).cons _
  | case3 t ts hp ih =>
    intro r hr
    rw [maximalRuns, if_neg hp] at hr
    exact (ih r hr).cons _

/-- Every sampling instant lies inside the requirement window. -/
theorem checkTimes_mem_bounds {S E t : ℚ} (ht : t ∈ checkTimes S E) :
    S ≤ t ∧ t < E := by
  unfold checkTimes at ht
  rcases List.mem_map.mp ht with ⟨k, hk, rfl⟩
  rw [List.mem_range] at hk
  constructor
  · have h₀ : (0:ℚ) ≤ 30 * (k : ℚ) := by positivity
    linarith
  · have h₁ : (k : ℤ) < ⌈(E - S) / 30⌉ := by omega
    have h₃ : (⌈(E - S) / 30⌉ : ℚ) < (E - S) / 30 + 1 := Int.ceil_lt_add_one _
    have h₄ : ((k : ℚ) + 1) ≤ (⌈(E - S) / 30⌉ : ℚ) := by exact_mod_cast h₁
    linarith

/-- The sampling instants are strictly increasing. -/
theorem checkTimes_pairwise (S E : ℚ) : (checkTimes S E).Pairwise (· < ·) := by
  unfold checkTimes
  refine List.Pairwise.map _ ?_ (List.pairwise_lt_range _)
  intro a b hab
  have h₁ : (a : ℚ) < (b : ℚ) := by exact_mod_cast hab
  linarith

/-- `filterMap` collapses to `map` when the function always succeeds. -/
theorem filterMap_congr_some {α β : Type} (f : α → Option β) (g : α → β) :
    ∀ l : List α, (∀ a ∈ l, f a = some (g a)) → l.filterMap f = l.map g := by
  intro l
  induction l with
  | nil => intro _; rfl
  | cons x xs ih =>
    intro h
    rw [List.filterMap_cons, h x (List.mem_cons_self x xs), List.map_cons,
      ih (fun a ha => h a (List.mem_cons_of_mem x ha))]

/-- C5 (confirmed): for every day's shift list and every staffing
requirement, the coverage pass of the Validator equals the reference
computation the claim describes — sample the window at 30-minute steps,
count distinct worker ids whose interval [start, end) contains the instant,
group consecutive under-staffed steps into maximal periods tracking the
minimum observed count, and emit exactly one warning per period of the
stated form, clipped to the requirement's boundaries.
(`validateSchedule` emits exactly these warnings per requirement: its day
loop is `dayWarningsFor`, whose coverage segment is
`coverageWarningsForRequirement`.) -/
theorem c5_coverage_warnings_eq_spec (dayShifts : List Shift)
    (requirement : StaffingRequirement) :
    coverageWarningsForRequirement dayShifts requirement =
      specCoverageWarnings dayShifts requirement := by
  simp only [coverageWarningsForRequirement, specCoverageWarnings]
  rw [insufficientPeriodsLoop_none_eq, List.filterMap_map]
  apply filterMap_congr_some
  intro run hrun
  have hsub := maximalRuns_sublist _ _ run hrun
  have hpw : (run.1 :: run.2).Pairwise (· < ·) :=
    (checkTimes_pairwise requirement.startTime requirement.endTime).sublist hsub
  have hmem : run.1 ∈ checkTimes requirement.startTime requirement.endTime :=
    hsub.subset (List.mem_cons_self _ _)
  have hbounds := checkTimes_mem_bounds hmem
  have hlast : run.1 ≤ run.2.getLastD run.1 := by
    rcases List.mem_cons.mp (List.getLastD_mem_cons run.2 run.1) with heq | hmem₂
    · exact heq.ge
    · exact le_of_lt ((List.pairwise_cons.mp hpw).1 _ hmem₂)
  simp only [Function.comp, runPeriod]
  rw [max_eq_left hbounds.1]
  have hcond : run.1 <
      min (min (run.2.getLastD run.1 + 30) requirement.endTime) requirement.endTime :=
    lt_min (lt_min (by linarith) hbounds.2) hbounds.2
  rw [if_pos hcond]

/-- `createCoverageTracker` (data-export.ts lines 1940-1946): one
zero-valued cell per requirement window (the source keys cells by the
`"start-end"` string, represented here by the pair of minute values it
names). -/
def createCoverageTracker (rules : PharmacyRules) : List ((ℚ × ℚ) × ℚ) :=
  rules.staffingRequirements.foldl
    (fun acc req => setEntry acc (req.startTime, req.endTime) 0) []

/-- `patternHelpsWithRequirement` (lines 2044-2072): one of the pattern's
sub-shifts strictly overlaps the requirement window. -/
def patternHelpsWithRequirement (pattern : FixedShiftPattern)
    (requirement : StaffingRequirement) : Bool :=
  (pattern.morningShift.startTime < requirement.endTime &&
    pattern.morningShift.endTime > requirement.startTime) ||
  (pattern.afternoonShift.startTime < requirement.endTime &&
    pattern.afternoonShift.endTime > requirement.startTime)

/-- `calculatePatternCoveragePercentage` (lines 2074-2101): rounded percent
of the requirement window covered by the two sub-shifts.  A zero-length
window makes the source compute `0/0` (NaN); here the rational convention
`0 / 0 = 0` applies instead, so theorems about this score assume
non-degenerate windows. -/
def calculatePatternCoveragePercentage (pattern : FixedShiftPattern)
    (requirement : StaffingRequirement) : ℤ :=
  let reqStart := requirement.startTime
  let reqEnd := requirement.endTime
  let morningOverlapStart := max pattern.morningShift.startTime reqStart
  let morningOverlapEnd := min pattern.morningShift.endTime reqEnd
  let afternoonOverlapStart := max pattern.afternoonShift.startTime reqStart
  let afternoonOverlapEnd := min pattern.afternoonShift.endTime reqEnd
  let totalCoverage :=
    (if morningOverlapStart < morningOverlapEnd then
      morningOverlapEnd - morningOverlapStart else 0) +
    (if afternoonOverlapStart < afternoonOverlapEnd then
      afternoonOverlapEnd - afternoonOverlapStart else 0)
  jsRound (totalCoverage / (reqEnd - reqStart) * 100)

/-- `updateCoverageTracker` (lines 2103-2134): add each sub-shift's
fractional coverage of every requirement window it overlaps. -/
def updateCoverageTracker (rules : PharmacyRules) (tracker : List ((ℚ × ℚ) × ℚ))
    (pattern : FixedShiftPattern) : List ((ℚ × ℚ) × ℚ) :=
  rules.staffingRequirements.foldl (fun acc req =>
    let key := (req.startTime, req.endTime)
    let reqStart := req.startTime
    let reqEnd := req.endTime
    let mS := max pattern.morningShift.startTime reqStart
    let mE := min pattern.morningShift.endTime reqEnd
    let acc₁ :=
      if mS < mE then
        setEntry acc key (lookupD acc key 0 + ((mE - mS) / (reqEnd - reqStart) * 100) / 100)
      else acc
    let aS := max pattern.afternoonShift.startTime reqStart
    let aE := min pattern.afternoonShift.endTime reqEnd
    if aS < aE then
      setEntry acc₁ key (lookupD acc₁ key 0 + ((aE - aS) / (reqEnd - reqStart) * 100) / 100)
    else acc₁) tracker

/-- Rotation-cursor state per pharmacist (the `patternRotationTracker`
entries, lines 2238-2251); the record's `pharmacist` field is never read
and is omitted. -/
structure RotState where
  patternIndex : ℕ
  dailyPatterns : List String
deriving DecidableEq, Repr

/-- `Math.max(...l)` over a list of naturals; every embedded call site
passes a non-empty list (JavaScript would give -Infinity on an empty one;
here it is 0). -/
def listMaxNat (l : List ℕ) : ℕ := l.foldl max 0

/-- `Math.min(...l)` over a list of naturals; every embedded call site
passes a non-empty list. -/
def listMinNat (l : List ℕ) : ℕ :=
  match l with
  | [] => 0
  | x :: xs => xs.foldl min x

/-- Placeholder for out-of-range pattern indexing: `patterns[i]` in the
source would yield `undefined` and crash on first field access, which is
unreachable at the embedded call sites (the pattern list is non-empty there
and every cursor is reduced modulo its length). -/
def defaultPattern : FixedShiftPattern :=
  { id := "", name := "", morningShift := ⟨0, 0⟩, afternoonShift := ⟨0, 0⟩ }

/-- The score of a candidate pattern when staffing requirements are unmet
(`createShiftAssignments` lines 975-989): the summed rounded coverage
contribution to each unmet requirement, plus a balance bonus of 10 per unit
of usage gap below the day's most-used pattern. -/
def patternScore (unmet : List StaffingRequirement) (patternUsageCount : List ℕ)
    (testPattern : FixedShiftPattern) (testIndex : ℕ) : ℤ :=
  (unmet.foldl (fun acc req =>
    if patternHelpsWithRequirement testPattern req then
      acc + calculatePatternCoveragePercentage testPattern req
    else acc) 0) +
  ((listMaxNat patternUsageCount : ℤ) - (patternUsageCount.getD testIndex 0 : ℤ)) * 10

/-- The best-scoring fold of `createShiftAssignments` lines 972-995: keep
the running best and switch on a strictly greater score. -/
def bestPatternFold (f : ℕ → FixedShiftPattern → ℤ)
    (l : List (ℕ × FixedShiftPattern)) (acc : FixedShiftPattern × ℕ × ℤ) :
    FixedShiftPattern × ℕ × ℤ :=
  l.foldl (fun best pr =>
    if f pr.1 pr.2 > best.2.2 then (pr.2, pr.1, f pr.1 pr.2) else best) acc

/-- Pattern choice for a rotation worker when at least one staffing
requirement is unmet (`createShiftAssignments` lines 967-998): start from
the rotation-cursor pattern with best score 0 and scan every pattern,
switching on a strictly greater score.  Returns the chosen pattern and its
index. -/
def chooseSmartPattern (patterns : List FixedShiftPattern) (cursor : ℕ)
    (unmet : List StaffingRequirement) (patternUsageCount : List ℕ) :
    FixedShiftPattern × ℕ :=
  let result := bestPatternFold
    (fun testIndex testPattern => patternScore unmet patternUsageCount testPattern testIndex)
    patterns.enum (patterns.getD cursor defaultPattern, cursor, 0)
  (result.1, result.2.1)

/-- A `foldl max` is at least its seed and at least every element. -/
theorem le_foldl_max : ∀ (l : List ℕ) (a : ℕ),
    a ≤ l.foldl max a ∧ ∀ x ∈ l, x ≤ l.foldl max a := by
  intro l
  induction l with
  | nil => intro a; exact ⟨le_refl a, by simp⟩
  | cons y ys ih =>
    intro a
    refine ⟨le_trans (le_max_left a y) (ih (max a y)).1, ?_⟩
    intro x hx
    rcases List.mem_cons.mp hx with rfl | hx₂
    · exact le_trans (le_max_right a x) (ih (max a x)).1
    · exact (ih (max a y)).2 x hx₂

/-- Any indexed usage count is bounded by the day's most-used count. -/
theorem getD_le_listMaxNat (l : List ℕ) (i : ℕ) : l.getD i 0 ≤ listMaxNat l := by
  by_cases h : i < l.length
  · rw [List.getD_eq_getElem l 0 h]
    exact (le_foldl_max l 0).2 _ (List.getElem_mem h)
  · rw [List.getD_eq_default l 0 (Nat.le_of_not_lt h)]
    exact Nat.zero_le _

/-- The rounded coverage contribution is nonnegative for a non-degenerate
requirement window. -/
theorem calculatePatternCoveragePercentage_nonneg (p : FixedShiftPattern)
    (req : StaffingRequirement) (h : req.startTime < req.endTime) :
    0 ≤ calculatePatternCoveragePercentage p req := by
  unfold calculatePatternCoveragePercentage jsRound
  apply Int.floor_nonneg.mpr
  have hd : (0:ℚ) < req.endTime - req.startTime := by linarith
  have htc : (0:ℚ) ≤
      (if max p.morningShift.startTime req.startTime <
          min p.morningShift.endTime req.endTime then
        min p.morningShift.endTime req.endTime -
          max p.morningShift.startTime req.startTime else 0) +
      (if max p.afternoonShift.startTime req.startTime <
          min p.afternoonShift.endTime req.endTime then
        min p.afternoonShift.endTime req.endTime -
          max p.afternoonShift.startTime req.startTime else 0) := by
    split_ifs <;> linarith
  have hq : (0:ℚ) ≤ _ / (req.endTime - req.startTime) * 100 :=
    mul_nonneg (div_nonneg htc (le_of_lt hd)) (by norm_num)
  linarith

/-- The coverage-contribution sum of `patternScore` is nonnegative. -/
theorem coverage_fold_nonneg (p : FixedShiftPattern) :
    ∀ (unmet : List StaffingRequirement) (a : ℤ),
    (∀ req ∈ unmet, req.startTime < req.endTime) → 0 ≤ a →
    0 ≤ unmet.foldl (fun acc req =>
      if patternHelpsWithRequirement p req then
        acc + calculatePatternCoveragePercentage p req
      else acc) a := by
  intro unmet
  induction unmet with
  | nil => intro a _ ha; simpa using ha
  | cons req rest ih =>
    intro a hall ha
    rw [List.foldl_cons]
    apply ih _ (fun r hr => hall r (List.mem_cons_of_mem req hr))
    split_ifs
    · have := calculatePatternCoveragePercentage_nonneg p req
        (hall req (List.mem_cons_self req rest))
      linarith
    · exact ha

/-- `patternScore` is nonnegative when every unmet requirement window is
non-degenerate. -/
theorem patternScore_nonneg (unmet : List StaffingRequirement)
    (patternUsageCount : List ℕ) (p : FixedShiftPattern) (i : ℕ)
    (hreq : ∀ req ∈ unmet, req.startTime < req.endTime) :
    0 ≤ patternScore unmet patternUsageCount p i := by
  unfold patternScore
  have h₁ := coverage_fold_nonneg p unmet 0 hreq (le_refl 0)
  have h₂ : ((patternUsageCount.getD i 0 : ℕ) : ℤ) ≤ (listMaxNat patternUsageCount : ℤ) := by
    exact_mod_cast getD_le_listMaxNat patternUsageCount i
  nlinarith

/-- The best-scoring fold keeps a monotone best score, dominates every
scanned candidate, and, unless it never moved off the seed, reports the
exact score of its reported candidate. -/
theorem bestPatternFold_spec (f : ℕ → FixedShiftPattern → ℤ) :
    ∀ (l : List (ℕ × FixedShiftPattern)) (acc : FixedShiftPattern × ℕ × ℤ),
    acc.2.2 ≤ (bestPatternFold f l acc).2.2 ∧
    (∀ pr ∈ l, f pr.1 pr.2 ≤ (bestPatternFold f l acc).2.2) ∧
    (bestPatternFold f l acc = acc ∨
      (bestPatternFold f l acc).2.2 =
        f (bestPatternFold f l acc).2.1 (bestPatternFold f l acc).1) := by
  intro l
  induction l with
  | nil => intro acc; exact ⟨le_refl _, by simp [bestPatternFold], Or.inl rfl⟩
  | cons pr rest ih =>
    intro acc
    have hstep : bestPatternFold f (pr :: rest) acc =
        bestPatternFold f rest
          (if f pr.1 pr.2 > acc.2.2 then (pr.2, pr.1, f pr.1 pr.2) else acc) := rfl
    rw [hstep]
    by_cases hgt : f pr.1 pr.2 > acc.2.2
    · rw [if_pos hgt]
      obtain ⟨ih₁, ih₂, ih₃⟩ := ih (pr.2, pr.1, f pr.1 pr.2)
      refine ⟨le_trans (le_of_lt hgt) ih₁, ?_, ?_⟩
      · intro q hq
        rcases List.mem_cons.mp hq with rfl | hq₂
        · exact ih₁
        · exact ih₂ q hq₂
      · rcases ih₃ with heq | hsc
        · rw [heq]; exact Or.inr rfl
        · exact Or.inr hsc
    · rw [if_neg hgt]
      obtain ⟨ih₁, ih₂, ih₃⟩ := ih acc
      refine ⟨ih₁, ?_, ih₃⟩
      intro q hq
      rcases List.mem_cons.mp hq with rfl | hq₂
      · exact le_trans (le_of_not_lt hgt) ih₁
      · exact ih₂ q hq₂

/-- C8 (confirmed): during rotation-based assignment, for a full-time
worker without a fixed day-pattern, when at least one staffing requirement
is unmet the chosen pattern maximizes, over all patterns, the score given
by the summed coverage contribution to the unmet requirements plus a
balance bonus of 10 per unit of usage gap below the day's most-used
pattern.  (Requirement windows are assumed non-degenerate; a zero-length
window makes the source's score NaN.) -/
theorem c8_unmet_pattern_choice_maximizes (patterns : List FixedShiftPattern)
    (cursor : ℕ) (unmet : List StaffingRequirement) (patternUsageCount : List ℕ)
    (_hne : unmet ≠ [])
    (hreq : ∀ req ∈ unmet, req.startTime < req.endTime) :
    ∀ pr ∈ patterns.enum,
      patternScore unmet patternUsageCount pr.2 pr.1 ≤
        patternScore unmet patternUsageCount
          (chooseSmartPattern patterns cursor unmet patternUsageCount).1
          (chooseSmartPattern patterns cursor unmet patternUsageCount).2 := by
  intro pr hpr
  obtain ⟨h₁, h₂, h₃⟩ := bestPatternFold_spec
    (fun testIndex testPattern => patternScore unmet patternUsageCount testPattern testIndex)
    patterns.enum (patterns.getD cursor defaultPattern, cursor, 0)
  have hle := h₂ pr hpr
  unfold chooseSmartPattern
  rcases h₃ with heq | hsc
  · rw [heq] at hle ⊢
    exact le_trans hle
      (patternScore_nonneg unmet patternUsageCount
        (patterns.getD cursor defaultPattern) cursor hreq)
  · exact le_trans hle (le_of_eq hsc)

/-- A pattern working the whole day, for the C8 witness. -/
def c8Pattern1 : FixedShiftPattern :=
  { id := "p1", name := "P1", morningShift := ⟨540, 780⟩,
    afternoonShift := ⟨840, 1170⟩ }

/-- A shorter pattern, for the C8 witness. -/
def c8Pattern2 : FixedShiftPattern :=
  { id := "p2", name := "P2", morningShift := ⟨600, 780⟩,
    afternoonShift := ⟨840, 1020⟩ }

/-- An all-day two-pharmacist requirement, for the C8 witness. -/
def c8Req : StaffingRequirement :=
  { id := "r", startTime := 540, endTime := 1170, requiredPharmacists := 2 }

set_option maxRecDepth 4000 in
/-- Witness for `c8_unmet_pattern_choice_maximizes` at concrete patterns,
cursor, unmet requirement and usage counts. -/
theorem c8_unmet_pattern_choice_maximizes_witness :
    patternScore [c8Req] [0, 1] c8Pattern1 0 ≤
      patternScore [c8Req] [0, 1]
        (chooseSmartPattern [c8Pattern1, c8Pattern2] 0 [c8Req] [0, 1]).1
        (chooseSmartPattern [c8Pattern1, c8Pattern2] 0 [c8Req] [0, 1]).2 :=
  c8_unmet_pattern_choice_maximizes [c8Pattern1, c8Pattern2] 0 [c8Req] [0, 1]
    (by decide) (by intro req hreq₂; fin_cases hreq₂; norm_num [c8Req])
    (0, c8Pattern1) (by with_unfolding_all decide)

/-- One entry of the `shiftAssignments` array built by
`createShiftAssignments` (lines 878-891). -/
structure Assignment where
  pharmacist : Pharmacist
  shiftType : ShiftType
  startTime : ℚ
  endTime : ℚ
  patternId : Option String
deriving DecidableEq, Repr

/-- The guarded update of `pharmacistPatternUsage` (lines 943-945 and
1103-1105): only when the outer map was supplied and already has an entry
for this pharmacist. -/
def bumpPatternUsage (usage : Option (List (String × List (String × ℕ))))
    (phId patternId : String) : Option (List (String × List (String × ℕ))) :=
  match usage with
  | none => none
  | some m =>
    match m.lookup phId with
    | none => some m
    | some inner => some (setEntry m phId (setEntry inner patternId (lookupD inner patternId 0 + 1)))

/-- One row of the per-pharmacist pattern-count table (lines 1005-1010). -/
structure PatternCount where
  pattern : FixedShiftPattern
  index : ℕ
  count : ℕ
  dayUsage : ℕ
deriving DecidableEq, Repr

/-- One cell of the global pattern-distribution table (lines 1014-1031);
`avg` and `currentDiff` are computed by the source but never read. -/
structure GlobalDist where
  minC : ℕ
  maxC : ℕ
  avg : ℚ
  currentDiff : ℕ
deriving DecidableEq, Repr

/-- `pharmacistPatternUsage?.[id] || {}` (line 1002 and the lookups of
lines 1017-1019). -/
def usageOf (patternUsage : Option (List (String × List (String × ℕ))))
    (phId : String) : List (String × ℕ) :=
  match patternUsage with
  | some m => lookupD m phId []
  | none => []

/-- The global pattern-distribution table of lines 1014-1031: per pattern,
the minimum/maximum/average usage count over all full-time pharmacists. -/
def globalPatternDistribution (patterns : List FixedShiftPattern)
    (fullTimePharmacists : List Pharmacist)
    (patternUsage : Option (List (String × List (String × ℕ)))) :
    List (String × GlobalDist) :=
  patterns.foldl (fun acc p =>
    let counts := fullTimePharmacists.map
      (fun ph => lookupD (usageOf patternUsage ph.id) p.id 0)
    if counts.length > 0 then
      setEntry acc p.id
        { minC := listMinNat counts, maxC := listMaxNat counts,
          avg := (counts.sum : ℚ) / (counts.length : ℚ),
          currentDiff := listMaxNat counts - listMinNat counts }
    else acc) []

/-- The balance filter of lines 1038-1044: patterns whose use keeps this
pharmacist's own per-pattern counts at most 1 apart. -/
def balancedCandidates (pharmacistPatternCounts : List PatternCount)
    (minCount : ℕ) : List PatternCount :=
  pharmacistPatternCounts.filter (fun p =>
    let newCount := p.count + 1
    let others := (pharmacistPatternCounts.filter
      (fun pp => pp.index ≠ p.index)).map (fun pp => pp.count)
    let newMin := others.foldl min minCount
    let newMax := others.foldl max newCount
    newMax - newMin ≤ 1)

/-- The third and fourth tiers of the balanced-rotation comparator
(lines 1085-1089): least used by this pharmacist, then least used today. -/
def balancedCmpTail (a b : PatternCount) : ℚ :=
  if a.count ≠ b.count then (a.count : ℚ) - (b.count : ℚ)
  else (a.dayUsage : ℚ) - (b.dayUsage : ℚ)

/-- The balanced-rotation comparator of lines 1054-1090: prefer candidates
on the balance list, then candidates whose use improves the global
max-minus-min spread, then the tail tiers. -/
def balancedCmp (balanced : List PatternCount) (global : List (String × GlobalDist))
    (a b : PatternCount) : ℚ :=
  let aB := balanced.any (fun p => p.index == a.index)
  let bB := balanced.any (fun p => p.index == b.index)
  if aB ≠ bB then (if aB then -1 else 1)
  else
    match global.lookup a.pattern.id, global.lookup b.pattern.id with
    | some aG, some bG =>
      let aDiff : ℤ := (max aG.maxC (a.count + 1) : ℤ) - (min aG.minC (a.count + 1) : ℤ)
      let bDiff : ℤ := (max bG.maxC (b.count + 1) : ℤ) - (min bG.minC (b.count + 1) : ℤ)
      if aDiff ≠ bDiff then
        if aDiff ≤ 1 ∧ bDiff > 1 then -1
        else if bDiff ≤ 1 ∧ aDiff > 1 then 1
        else (aDiff : ℚ) - (bDiff : ℚ)
      else balancedCmpTail a b
    | _, _ => balancedCmpTail a b

/-- Stable insertion: the new element goes after every earlier element that
does not compare strictly greater.  With `stableSortByCmp` this models the
stable `Array.prototype.sort` under a consistent numeric comparator. -/
def stableInsertByCmp {α : Type} (cmp : α → α → ℚ) (x : α) : List α → List α
  | [] => [x]
  | y :: ys => if cmp y x ≤ 0 then y :: stableInsertByCmp cmp x ys else x :: y :: ys

/-- Stable sort by a numeric comparator (see `stableInsertByCmp`). -/
def stableSortByCmp {α : Type} (cmp : α → α → ℚ) (l : List α) : List α :=
  l.foldl (fun acc x => stableInsertByCmp cmp x acc) []

/-- Pattern choice for a rotation worker when no staffing requirement is
unmet (`createShiftAssignments` lines 1000-1096): three-tier balanced
selection over the per-pharmacist pattern counts. -/
def chooseBalancedPattern (patterns : List FixedShiftPattern)
    (fullTimePharmacists : List Pharmacist)
    (patternUsage : Option (List (String × List (String × ℕ))))
    (phId : String) (patternUsageCount : List ℕ) : FixedShiftPattern × ℕ :=
  let pharmacistUsage := usageOf patternUsage phId
  let pharmacistPatternCounts := patterns.enum.map (fun ip =>
    ({ pattern := ip.2, index := ip.1, count := lookupD pharmacistUsage ip.2.id 0,
       dayUsage := patternUsageCount.getD ip.1 0 } : PatternCount))
  let global := globalPatternDistribution patterns fullTimePharmacists patternUsage
  let minCount := listMinNat (pharmacistPatternCounts.map (fun p => p.count))
  let balanced := balancedCandidates pharmacistPatternCounts minCount
  let candidates := if balanced.length > 0 then balanced else pharmacistPatternCounts
  let sorted := stableSortByCmp (balancedCmp balanced global) candidates
  let selected := sorted.headD
    { pattern := defaultPattern, index := 0, count := 0, dayUsage := 0 }
  (selected.pattern, selected.index)

/-- Splitting the full-time pharmacists into those with a resolvable fixed
pattern for this day and the rest (`createShiftAssignments` lines 913-935);
a fixed entry whose pattern id is not among the rules' patterns falls back
to rotation. -/
def splitFixedPatterns (patterns : List FixedShiftPattern) (dayName : String) :
    List Pharmacist → List (Pharmacist × FixedShiftPattern × ℕ) × List Pharmacist
  | [] => ([], [])
  | ph :: rest =>
    let split := splitFixedPatterns patterns dayName rest
    match ph.fixedDayPatterns.bind (fun l => l.find? (fun dp => dp.dayOfWeek == dayName)) with
    | some fixedDayPattern =>
      match patterns.find? (fun p => p.id == fixedDayPattern.patternId) with
      | some fixedPattern =>
        ((ph, fixedPattern, patterns.findIdx (fun p => p.id == fixedPattern.id)) :: split.1,
          split.2)
      | none => (split.1, ph :: split.2)
    | none => (split.1, ph :: split.2)

/-- The mutable state threaded through the full-time section of
`createShiftAssignments` (lines 901-1113). -/
structure FullTimeState where
  patternAssignments : List (Pharmacist × FixedShiftPattern)
  patternUsageCount : List ℕ
  coverageTracker : List ((ℚ × ℚ) × ℚ)
  rotation : List (String × RotState)
  patternUsage : Option (List (String × List (String × ℕ)))
deriving Repr

/-- Processing one fixed-pattern full-time pharmacist (lines 938-953):
record the assignment and update counters and coverage; the rotation cursor
is not advanced, only the daily-pattern log grows. -/
def assignFixedPatternPharmacist (rules : PharmacyRules) (st : FullTimeState)
    (entry : Pharmacist × FixedShiftPattern × ℕ) : FullTimeState :=
  let tracker := lookupD st.rotation entry.1.id ⟨0, []⟩
  { patternAssignments := st.patternAssignments ++ [(entry.1, entry.2.1)],
    patternUsageCount := st.patternUsageCount.set entry.2.2
      (st.patternUsageCount.getD entry.2.2 0 + 1),
    coverageTracker := updateCoverageTracker rules st.coverageTracker entry.2.1,
    rotation := setEntry st.rotation entry.1.id
      { patternIndex := tracker.patternIndex,
        dailyPatterns := tracker.dailyPatterns ++ [entry.2.1.name] },
    patternUsage := bumpPatternUsage st.patternUsage entry.1.id entry.2.1.id }

/-- Processing one rotation full-time pharmacist (lines 956-1113): pick a
pattern by the unmet-requirement score or by balanced rotation, record it,
update counters and coverage, and advance the rotation cursor. -/
def assignRotationPharmacist (rules : PharmacyRules) (patterns : List FixedShiftPattern)
    (fullTimePharmacists : List Pharmacist) (st : FullTimeState)
    (pharmacist : Pharmacist) : FullTimeState :=
  let tracker := lookupD st.rotation pharmacist.id ⟨0, []⟩
  let unmet := rules.staffingRequirements.filter (fun req =>
    lookupD st.coverageTracker (req.startTime, req.endTime) 0 < (req.requiredPharmacists : ℚ))
  let chosen :=
    if unmet.length > 0 then
      chooseSmartPattern patterns tracker.patternIndex unmet st.patternUsageCount
    else
      chooseBalancedPattern patterns fullTimePharmacists st.patternUsage
        pharmacist.id st.patternUsageCount
  { patternAssignments := st.patternAssignments ++ [(pharmacist, chosen.1)],
    patternUsageCount := st.patternUsageCount.set chosen.2
      (st.patternUsageCount.getD chosen.2 0 + 1),
    coverageTracker := updateCoverageTracker rules st.coverageTracker chosen.1,
    rotation := setEntry st.rotation pharmacist.id
      { patternIndex := (tracker.patternIndex + 1) % patterns.length,
        dailyPatterns := tracker.dailyPatterns ++ [chosen.1.name] },
    patternUsage := bumpPatternUsage st.patternUsage pharmacist.id chosen.1.id }

/-- Turning the pattern assignments into shift assignments (lines
1116-1161): a pattern with a gap between its sub-shifts yields a morning
and an afternoon assignment, otherwise one full-day assignment. -/
def assignmentsOfPatternAssignments
    (patternAssignments : List (Pharmacist × FixedShiftPattern)) : List Assignment :=
  patternAssignments.flatMap (fun pp =>
    if pp.2.afternoonShift.startTime > pp.2.morningShift.endTime then
      [{ pharmacist := pp.1, shiftType := ShiftType.morning,
         startTime := pp.2.morningShift.startTime, endTime := pp.2.morningShift.endTime,
         patternId := some pp.2.id },
       { pharmacist := pp.1, shiftType := ShiftType.afternoon,
         startTime := pp.2.afternoonShift.startTime, endTime := pp.2.afternoonShift.endTime,
         patternId := some pp.2.id }]
    else
      [{ pharmacist := pp.1, shiftType := ShiftType.full,
         startTime := pp.2.morningShift.startTime, endTime := pp.2.afternoonShift.endTime,
         patternId := some pp.2.id }])

/-- A shift shape chosen for a part-time worker before synthesis. -/
structure AdjustedShift where
  shiftType : ShiftType
  startTime : ℚ
  endTime : ℚ
deriving DecidableEq, Repr

/-- `findBestPatternForRequirement` (lines 1632-1690): scores each pattern
by which configuration fully covers the requirement window and whether it
fits the remaining hours; keeps the strictly best scorer. -/
def findBestPatternForRequirement (requirement : StaffingRequirement)
    (patterns : List FixedShiftPattern) (remainingHours : ℚ) :
    Option FixedShiftPattern :=
  let reqStart := requirement.startTime
  let reqEnd := requirement.endTime
  (patterns.foldl (fun best pattern =>
    let morningCovers := pattern.morningShift.startTime ≤ reqStart ∧
      pattern.morningShift.endTime ≥ reqEnd
    let afternoonCovers := pattern.afternoonShift.startTime ≤ reqStart ∧
      pattern.afternoonShift.endTime ≥ reqEnd
    let fullCovers := pattern.morningShift.startTime ≤ reqStart ∧
      pattern.afternoonShift.endTime ≥ reqEnd
    if ¬morningCovers ∧ ¬afternoonCovers ∧ ¬fullCovers then best
    else
      let base : ℤ := if fullCovers then 100 else if afternoonCovers then 70
        else if morningCovers then 50 else 0
      let morningHours := calculateShiftHours pattern.morningShift.startTime
        pattern.morningShift.endTime
      let afternoonHours := calculateShiftHours pattern.afternoonShift.startTime
        pattern.afternoonShift.endTime
      let fullHours := morningHours + afternoonHours
      let score : ℤ :=
        if remainingHours ≥ fullHours then base + 20
        else if remainingHours ≥ afternoonHours then base + 10
        else if remainingHours ≥ morningHours then base + 5
        else base - 50
      if score > best.2 then (some pattern, score) else best)
    ((none : Option FixedShiftPattern), (0 : ℤ))).1

/-- `adjustPatternForPartTimeExact` (lines 1695-1783): the smallest covering
configuration matched or stretched to the exact daily hours. -/
def adjustPatternForPartTimeExact (pattern : FixedShiftPattern)
    (requirement : StaffingRequirement) (exactHours : ℚ) : Option AdjustedShift :=
  let reqStart := requirement.startTime
  let reqEnd := requirement.endTime
  let morningStart := pattern.morningShift.startTime
  let morningEnd := pattern.morningShift.endTime
  let afternoonStart := pattern.afternoonShift.startTime
  let afternoonEnd := pattern.afternoonShift.endTime
  let morningHours := calculateShiftHours morningStart morningEnd
  let afternoonHours := calculateShiftHours afternoonStart afternoonEnd
  let fullHours := morningHours + afternoonHours
  let morningCovers := morningStart ≤ reqStart ∧ morningEnd ≥ reqEnd
  let afternoonCovers := afternoonStart ≤ reqStart ∧ afternoonEnd ≥ reqEnd
  let fullCovers := morningStart ≤ reqStart ∧ afternoonEnd ≥ reqEnd
  if morningCovers ∧ |morningHours - exactHours| < 0.5 then
    some ⟨ShiftType.morning, morningStart, morningEnd⟩
  else if morningCovers ∧ morningHours < exactHours then
    some ⟨ShiftType.morning, morningStart, morningEnd + (exactHours - morningHours) * 60⟩
  else if afternoonCovers ∧ |afternoonHours - exactHours| < 0.5 then
    some ⟨ShiftType.afternoon, afternoonStart, afternoonEnd⟩
  else if afternoonCovers ∧ afternoonHours < exactHours then
    some ⟨ShiftType.afternoon, afternoonStart, afternoonEnd + (exactHours - afternoonHours) * 60⟩
  else if fullCovers ∧ |fullHours - exactHours| < 0.5 then
    some ⟨ShiftType.full, morningStart, afternoonEnd⟩
  else if fullCovers ∧ fullHours < exactHours then
    some ⟨ShiftType.full, morningStart, afternoonEnd + (exactHours - fullHours) * 60⟩
  else if fullCovers ∧ fullHours > exactHours then
    let reducedEndMinutes := afternoonEnd - (fullHours - exactHours) * 60
    if reducedEndMinutes > morningStart then
      some ⟨ShiftType.full, morningStart, reducedEndMinutes⟩
    else none
  else none

/-- The `+1` coverage bump applied when a concrete part-time shift is
recorded (lines 1321-1331, 1439-1449, 1563-1573): one unit for every
requirement window the shift overlaps. -/
def bumpCoverageOverlap (rules : PharmacyRules) (tracker : List ((ℚ × ℚ) × ℚ))
    (shiftStart shiftEnd : ℚ) : List ((ℚ × ℚ) × ℚ) :=
  rules.staffingRequirements.foldl (fun acc req =>
    if shiftStart < req.endTime ∧ shiftEnd > req.startTime then
      setEntry acc (req.startTime, req.endTime)
        (lookupD acc (req.startTime, req.endTime) 0 + 1)
    else acc) tracker

/-- The guarded decrement of the remaining-working-days ledger
(lines 1338-1340, 1456-1458, 1580-1582, 1608-1610). -/
def decrementDaysRemaining (daysRemaining : Option (List (String × ℤ)))
    (phId : String) (workingDaysPerWeek : ℤ) : Option (List (String × ℤ)) :=
  match daysRemaining with
  | some m => some (setEntry m phId (lookupD m phId workingDaysPerWeek - 1))
  | none => none

/-- The stage-1 search of the Part-Time Allocator (lines 1297-1347): walk
the sorted unmet requirements and take the first whose best pattern can be
adjusted to the exact daily hours. -/
def findCoverAssignment (patterns : List FixedShiftPattern) (hoursToAssign : ℚ) :
    List StaffingRequirement → Option (FixedShiftPattern × AdjustedShift)
  | [] => none
  | req :: rest =>
    match findBestPatternForRequirement req patterns hoursToAssign with
    | some bp =>
      match adjustPatternForPartTimeExact bp req hoursToAssign with
      | some sh => some (bp, sh)
      | none => findCoverAssignment patterns hoursToAssign rest
    | none => findCoverAssignment patterns hoursToAssign rest

/-- The stage-2 search of the Part-Time Allocator (lines 1350-1463): over
every pattern and its full/afternoon/morning configurations, score exact
fits at 100, extensions at 80 and reductions at 70 (each less 10 per hour
of mismatch) and keep the strict best. -/
def findExactFitShift (rules : PharmacyRules) (patterns : List FixedShiftPattern)
    (hoursToAssign : ℚ) : Option (FixedShiftPattern × AdjustedShift) :=
  (patterns.foldl (fun best pattern =>
    let morningHours := calculateShiftHours pattern.morningShift.startTime
      pattern.morningShift.endTime
    let afternoonHours := calculateShiftHours pattern.afternoonShift.startTime
      pattern.afternoonShift.endTime
    let configs : List (ShiftType × ℚ × ℚ × ℚ) :=
      [(ShiftType.full, morningHours + afternoonHours,
        pattern.morningShift.startTime, pattern.afternoonShift.endTime),
       (ShiftType.afternoon, afternoonHours,
        pattern.afternoonShift.startTime, pattern.afternoonShift.endTime),
       (ShiftType.morning, morningHours,
        pattern.morningShift.startTime, pattern.morningShift.endTime)]
    configs.foldl (fun best config =>
      let hrs := config.2.1
      let cS := config.2.2.1
      let cE := config.2.2.2
      if hrs ≤ hoursToAssign + 0.5 ∧ hrs ≥ hoursToAssign - 0.5 then
        let score := 100 - |hrs - hoursToAssign| * 10
        if score > best.2 then (some (pattern, (⟨config.1, cS, cE⟩ : AdjustedShift)), score)
        else best
      else if hrs < hoursToAssign then
        let extendedEndMinutes := cE + (hoursToAssign - hrs) * 60
        if extendedEndMinutes ≤ rules.closingTime then
          let score := 80 - |(extendedEndMinutes - cE) / 60 - (hoursToAssign - hrs)| * 10
          if score > best.2 then
            (some (pattern, (⟨config.1, cS, extendedEndMinutes⟩ : AdjustedShift)), score)
          else best
        else best
      else if hrs > hoursToAssign then
        let reducedEndMinutes := cE - (hrs - hoursToAssign) * 60
        if reducedEndMinutes > cS then
          let score := 70 - |(cE - reducedEndMinutes) / 60 - (hrs - hoursToAssign)| * 10
          if score > best.2 then
            (some (pattern, (⟨config.1, cS, reducedEndMinutes⟩ : AdjustedShift)), score)
          else best
        else best
      else best) best)
    ((none : Option (FixedShiftPattern × AdjustedShift)), (0 : ℚ))).1

/-- The stage-3 pattern scan of the Part-Time Allocator (lines 1469-1524);
note the source records `fallbackPattern` even when the closing-time check
then fails without breaking, so a later push may carry that pattern's id. -/
def findFallbackShift (rules : PharmacyRules) (patterns : List FixedShiftPattern)
    (hoursToAssign : ℚ) : Option FixedShiftPattern × Option AdjustedShift :=
  let st := patterns.foldl (fun st pattern =>
    if st.2.2 then st
    else
      let morningHours := calculateShiftHours pattern.morningShift.startTime
        pattern.morningShift.endTime
      let afternoonHours := calculateShiftHours pattern.afternoonShift.startTime
        pattern.afternoonShift.endTime
      if |morningHours + afternoonHours - hoursToAssign| ≤ 2 then
        let targetEnd := pattern.morningShift.startTime + hoursToAssign * 60
        if targetEnd ≤ rules.closingTime then
          (some pattern,
            some (⟨ShiftType.full, pattern.morningShift.startTime, targetEnd⟩ : AdjustedShift),
            true)
        else (some pattern, st.2.1, false)
      else if |afternoonHours - hoursToAssign| ≤ 1.5 then
        let targetEnd := pattern.afternoonShift.startTime + hoursToAssign * 60
        if targetEnd ≤ rules.closingTime then
          (some pattern,
            some (⟨ShiftType.afternoon, pattern.afternoonShift.startTime, targetEnd⟩ : AdjustedShift),
            true)
        else (some pattern, st.2.1, false)
      else if |morningHours - hoursToAssign| ≤ 1.5 then
        (some pattern,
          some (⟨ShiftType.morning, pattern.morningShift.startTime,
            pattern.morningShift.startTime + hoursToAssign * 60⟩ : AdjustedShift),
          true)
      else st)
    ((none : Option FixedShiftPattern), (none : Option AdjustedShift), false)
  (st.1, st.2.1)

/-- The opening-anchored custom shift of lines 1527-1551, used when no
pattern-based fallback was found. -/
def fallbackOpeningShift (rules : PharmacyRules) (hoursToAssign : ℚ) :
    Option AdjustedShift :=
  let targetEnd := rules.openingTime + hoursToAssign * 60
  if targetEnd ≤ rules.closingTime then
    some ⟨ShiftType.full, rules.openingTime, targetEnd⟩
  else
    let adjustedStart := rules.closingTime - hoursToAssign * 60
    if adjustedStart ≥ rules.openingTime then
      some ⟨ShiftType.full, adjustedStart, rules.closingTime⟩
    else none

/-- The mutable state threaded through the part-time section of
`createShiftAssignments` (lines 1178-1619). -/
structure PartTimeState where
  assignments : List Assignment
  coverageTracker : List ((ℚ × ℚ) × ℚ)
  daysRemaining : Option (List (String × ℤ))
deriving Repr

/-- Processing one part-time pharmacist (lines 1205-1618): skip on free day
or if already assigned; compute the day's exact hours; then stage 1
(cover an unmet requirement), stage 2 (exact-fit configuration), stage 3
(fallback custom shift) and the last-resort 2-hour shift. -/
def assignPartTimePharmacist (rules : PharmacyRules) (patterns : List FixedShiftPattern)
    (dayName : String) (weeklyHours : List (String × ℚ)) (st : PartTimeState)
    (pharmacist : Pharmacist) : PartTimeState :=
  if isFreeDay pharmacist dayName then st
  else if st.assignments.any (fun a => a.pharmacist.id == pharmacist.id) then st
  else
    let workingDaysPerWeek : ℕ := if hasFreeDay pharmacist then 5 else 6
    let remainingHours := lookupD weeklyHours pharmacist.id pharmacist.weeklyHours
    let remainingWorkingDays : ℤ := match st.daysRemaining with
      | some m => lookupD m pharmacist.id (workingDaysPerWeek : ℤ)
      | none => (workingDaysPerWeek : ℤ)
    let hoursToday := hoursToAssignToday remainingHours remainingWorkingDays
      pharmacist.weeklyHours workingDaysPerWeek
    let unmet := rules.staffingRequirements.filter (fun req =>
      lookupD st.coverageTracker (req.startTime, req.endTime) 0 < (req.requiredPharmacists : ℚ))
    let stage1 :=
      if unmet.length > 0 then
        findCoverAssignment patterns hoursToday
          (stableSortByCmp (fun a b =>
            ((b.requiredPharmacists : ℚ) -
              lookupD st.coverageTracker (b.startTime, b.endTime) 0) -
            ((a.requiredPharmacists : ℚ) -
              lookupD st.coverageTracker (a.startTime, a.endTime) 0)) unmet)
      else none
    match stage1 with
    | some hit =>
      { assignments := st.assignments ++
          [⟨pharmacist, hit.2.shiftType, hit.2.startTime, hit.2.endTime, some hit.1.id⟩],
        coverageTracker := bumpCoverageOverlap rules st.coverageTracker
          hit.2.startTime hit.2.endTime,
        daysRemaining := decrementDaysRemaining st.daysRemaining pharmacist.id
          (workingDaysPerWeek : ℤ) }
    | none =>
      match findExactFitShift rules patterns hoursToday with
      | some hit =>
        { assignments := st.assignments ++
            [⟨pharmacist, hit.2.shiftType, hit.2.startTime, hit.2.endTime, some hit.1.id⟩],
          coverageTracker := bumpCoverageOverlap rules st.coverageTracker
            hit.2.startTime hit.2.endTime,
          daysRemaining := decrementDaysRemaining st.daysRemaining pharmacist.id
            (workingDaysPerWeek : ℤ) }
      | none =>
        let fb := findFallbackShift rules patterns hoursToday
        let fbShift := match fb.2 with
          | some sh => some sh
          | none => fallbackOpeningShift rules hoursToday
        match fbShift with
        | some sh =>
          { assignments := st.assignments ++
              [⟨pharmacist, sh.shiftType, sh.startTime, sh.endTime,
                fb.1.map (fun p => p.id)⟩],
            coverageTracker := bumpCoverageOverlap rules st.coverageTracker
              sh.startTime sh.endTime,
            daysRemaining := decrementDaysRemaining st.daysRemaining pharmacist.id
              (workingDaysPerWeek : ℤ) }
        | none =>
          if rules.openingTime + 2 * 60 ≤ rules.closingTime then
            { assignments := st.assignments ++
                [⟨pharmacist, ShiftType.morning, rules.openingTime,
                  rules.openingTime + 2 * 60, none⟩],
              coverageTracker := st.coverageTracker,
              daysRemaining := decrementDaysRemaining st.daysRemaining pharmacist.id
                (workingDaysPerWeek : ℤ) }
          else st

/-- The combined result of `createShiftAssignments`: the assignment list
plus the threaded mutable state. -/
structure AssignResult where
  assignments : List Assignment
  rotation : List (String × RotState)
  daysRemaining : Option (List (String × ℤ))
  patternUsage : Option (List (String × List (String × ℕ)))
deriving Repr

/-- `createShiftAssignments` (data-export.ts lines 870-1627): full-time
pharmacists first (fixed patterns, then smart/balanced rotation), then
part-time pharmacists against the coverage left by the full-time pass. -/
def createShiftAssignments (rules : PharmacyRules)
    (availablePharmacists : List Pharmacist) (dayName : String)
    (weeklyHours : List (String × ℚ)) (rotation : List (String × RotState))
    (daysRemaining : Option (List (String × ℤ)))
    (patternUsage : Option (List (String × List (String × ℕ)))) : AssignResult :=
  let fullTimePharmacists := availablePharmacists.filter (fun p => p.weeklyHours ≥ 40)
  let partTimePharmacists := availablePharmacists.filter (fun p => p.weeklyHours < 40)
  let ftResult :=
    match rules.fixedShiftPatterns with
    | some patterns =>
      if fullTimePharmacists.length > 0 then
        let split := splitFixedPatterns patterns dayName fullTimePharmacists
        let st₀ : FullTimeState :=
          { patternAssignments := [], patternUsageCount := patterns.map (fun _ => 0),
            coverageTracker := createCoverageTracker rules, rotation := rotation,
            patternUsage := patternUsage }
        let st₁ := split.1.foldl (assignFixedPatternPharmacist rules) st₀
        let st₂ := split.2.foldl
          (assignRotationPharmacist rules patterns fullTimePharmacists) st₁
        (assignmentsOfPatternAssignments st₂.patternAssignments, st₂.rotation, st₂.patternUsage)
      else ([], rotation, patternUsage)
    | none =>
      (fullTimePharmacists.map (fun p =>
        ({ pharmacist := p, shiftType := ShiftType.full, startTime := rules.openingTime,
           endTime := rules.closingTime, patternId := none } : Assignment)),
        rotation, patternUsage)
  let ptResult :=
    if partTimePharmacists.length > 0 ∧ rules.fixedShiftPatterns.isSome then
      let patterns := rules.fixedShiftPatterns.getD []
      let coverage₀ := ftResult.1.foldl (fun cov a =>
        match a.patternId.bind (fun pid => patterns.find? (fun p => p.id == pid)) with
        | some pattern => updateCoverageTracker rules cov pattern
        | none => bumpCoverageOverlap rules cov a.startTime a.endTime)
        (createCoverageTracker rules)
      partTimePharmacists.foldl (assignPartTimePharmacist rules patterns dayName weeklyHours)
        { assignments := ftResult.1, coverageTracker := coverage₀,
          daysRemaining := daysRemaining }
    else
      { assignments := ftResult.1, coverageTracker := [], daysRemaining := daysRemaining }
  { assignments := ptResult.assignments, rotation := ftResult.2.1,
    daysRemaining := ptResult.daysRemaining, patternUsage := ftResult.2.2 }

/-- Synthesis of the shift records for one assignment (the branch bodies of
`generateDayShifts`, lines 664-856), returning the created shifts and the
`totalShiftHours` to deduct.  In the morning branch that cannot extend
forward, the source sets only `actualEndTime` — line 676 binds
`actualStartTime` as a `const` to the original start — so the pushed shift
keeps the late start while the log claims an opening-time shift (line 697):
translated faithfully. -/
def synthesizeShifts (rules : PharmacyRules) (dateStr : ℕ)
    (assignment : Assignment) : List Shift × ℚ :=
  let pharmacist := assignment.pharmacist
  let startTime := assignment.startTime
  let endTime := assignment.endTime
  let morningId := s!"shift_{dateStr}_{pharmacist.id}_morning"
  let afternoonId := s!"shift_{dateStr}_{pharmacist.id}_afternoon"
  match assignment.shiftType with
    | ShiftType.morning =>
      let shiftHours := calculateShiftHours startTime endTime
      if shiftHours < 2 then
        if startTime + 2 * 60 ≤ rules.closingTime then
          ([{ id := morningId, pharmacistId := pharmacist.id, date := dateStr,
              startTime := startTime, endTime := startTime + 2 * 60,
              type := ShiftType.morning, isBreakTime := false,
              patternId := assignment.patternId }], 2)
        else if rules.openingTime + 2 * 60 ≤ rules.closingTime then
          ([{ id := morningId, pharmacistId := pharmacist.id, date := dateStr,
              startTime := startTime, endTime := rules.openingTime + 2 * 60,
              type := ShiftType.morning, isBreakTime := false,
              patternId := assignment.patternId }], 2)
        else ([], 0)
      else
        ([{ id := morningId, pharmacistId := pharmacist.id, date := dateStr,
            startTime := startTime, endTime := endTime, type := ShiftType.morning,
            isBreakTime := false, patternId := assignment.patternId }], shiftHours)
    | ShiftType.afternoon =>
      let shiftHours := calculateShiftHours startTime endTime
      if shiftHours < 2 then
        if startTime + 2 * 60 ≤ rules.closingTime then
          ([{ id := afternoonId, pharmacistId := pharmacist.id, date := dateStr,
              startTime := startTime, endTime := startTime + 2 * 60,
              type := ShiftType.afternoon, isBreakTime := false,
              patternId := assignment.patternId }], 2)
        else if rules.closingTime - 2 * 60 ≥ rules.breakEndTime then
          ([{ id := afternoonId, pharmacistId := pharmacist.id, date := dateStr,
              startTime := rules.closingTime - 2 * 60, endTime := rules.closingTime,
              type := ShiftType.afternoon, isBreakTime := false,
              patternId := assignment.patternId }], 2)
        else ([], 0)
      else
        ([{ id := afternoonId, pharmacistId := pharmacist.id, date := dateStr,
            startTime := startTime, endTime := endTime, type := ShiftType.afternoon,
            isBreakTime := false, patternId := assignment.patternId }], shiftHours)
    | ShiftType.full =>
      let morningHours := (rules.breakStartTime - startTime) / 60
      let afternoonHours := (endTime - rules.breakEndTime) / 60
      let isPartTime := pharmacist.weeklyHours < 40
      let morningPart : List Shift × ℚ :=
        if morningHours ≥ 2 then
          ([{ id := morningId, pharmacistId := pharmacist.id, date := dateStr,
              startTime := startTime, endTime := rules.breakStartTime,
              type := ShiftType.morning, isBreakTime := false,
              patternId := assignment.patternId }], morningHours)
        else if isPartTime ∧ morningHours > 0 then
          ([{ id := morningId, pharmacistId := pharmacist.id, date := dateStr,
              startTime := startTime, endTime := rules.breakStartTime,
              type := ShiftType.morning, isBreakTime := false,
              patternId := assignment.patternId }], max 2 morningHours)
        else ([], 0)
      let afternoonPart : List Shift × ℚ :=
        if afternoonHours ≥ 2 then
          ([{ id := afternoonId, pharmacistId := pharmacist.id, date := dateStr,
              startTime := rules.breakEndTime, endTime := endTime,
              type := ShiftType.afternoon, isBreakTime := false,
              patternId := assignment.patternId }], afternoonHours)
        else if isPartTime ∧ afternoonHours > 0 then
          ([{ id := afternoonId, pharmacistId := pharmacist.id, date := dateStr,
              startTime := rules.breakEndTime, endTime := endTime,
              type := ShiftType.afternoon, isBreakTime := false,
              patternId := assignment.patternId }], max 2 afternoonHours)
        else ([], 0)
      let total := morningPart.2 + afternoonPart.2
      if isPartTime ∧ total = 0 then
        if rules.openingTime + 2 * 60 ≤ rules.closingTime then
          ([{ id := morningId, pharmacistId := pharmacist.id, date := dateStr,
              startTime := rules.openingTime, endTime := rules.openingTime + 2 * 60,
              type := ShiftType.morning, isBreakTime := false,
              patternId := assignment.patternId }], 2)
        else ([], 0)
      else (morningPart.1 ++ afternoonPart.1, total)

/-- One step of the assignment loop of `generateDayShifts` (lines 664-865):
synthesize the shifts, then deduct the synthesized hours from the worker's
ledger only when a shift was actually created (lines 858-864). -/
def processAssignment (rules : PharmacyRules) (dateStr : ℕ)
    (acc : List Shift × List (String × ℚ)) (assignment : Assignment) :
    List Shift × List (String × ℚ) :=
  let made := synthesizeShifts rules dateStr assignment
  if made.2 > 0 then
    (acc.1 ++ made.1,
      setEntry acc.2 assignment.pharmacist.id
        (lookupD acc.2 assignment.pharmacist.id 0 - made.2))
  else (acc.1 ++ made.1, acc.2)

/-- The result of `generateDayShifts`: the day's shifts and the threaded
mutable state (hours ledger, rotation cursors, remaining-days ledger,
optional usage map). -/
structure DayShiftsResult where
  shifts : List Shift
  weeklyHours : List (String × ℚ)
  rotation : List (String × RotState)
  daysRemaining : Option (List (String × ℤ))
  patternUsage : Option (List (String × List (String × ℕ)))
deriving Repr

/-- `generateDayShifts` (data-export.ts lines 648-868): build the day's
assignments, synthesize shift records for each and deduct the synthesized
hours.  The source's `dayIndex` parameter is used only in log output and is
omitted. -/
def generateDayShifts (rules : PharmacyRules) (date : ℕ)
    (availablePharmacists : List Pharmacist) (weeklyHours : List (String × ℚ))
    (rotation : List (String × RotState)) (dayName : String)
    (daysRemaining : Option (List (String × ℤ)))
    (patternUsage : Option (List (String × List (String × ℕ)))) : DayShiftsResult :=
  let ar := createShiftAssignments rules availablePharmacists dayName weeklyHours
    rotation daysRemaining patternUsage
  let made := ar.assignments.foldl (processAssignment rules date) ([], weeklyHours)
  { shifts := made.1, weeklyHours := made.2, rotation := ar.rotation,
    daysRemaining := ar.daysRemaining, patternUsage := ar.patternUsage }

/-- The week's day names in workday order (Monday first). -/
def dayNamesMonFirst : List String :=
  ["Monday", "Tuesday", "Wednesday", "Thursday", "Friday", "Saturday"]

/-- The `dayOrder` array of `getAvailablePharmacists` (line 636). -/
def dayOrder : List String :=
  ["Monday", "Tuesday", "Wednesday", "Thursday", "Friday", "Saturday", "Sunday"]

/-- `Array.prototype.indexOf`: index of the first occurrence, or -1. -/
def indexOfStr (l : List String) (s : String) : ℤ :=
  match l.findIdx? (fun x => x == s) with
  | some i => (i : ℤ)
  | none => -1

/-- `a.freeDay || a.fixedDayPatterns?.find(FREE_DAY)?.dayOfWeek || 'Monday'`
(lines 637-638). -/
def freeDayOrDefault (p : Pharmacist) : String :=
  if p.freeDay ≠ "" then p.freeDay
  else
    match p.fixedDayPatterns with
    | some l =>
      match l.find? (fun dp => dp.patternId == "FREE_DAY") with
      | some dp => dp.dayOfWeek
      | none => "Monday"
    | none => "Monday"

/-- `getAvailablePharmacists` (data-export.ts lines 568-646): drop free-day
and Saturday-rotation workers; drop full-time workers who already worked 5
days or have under 8 hours left; keep part-time workers regardless of
remaining hours; then sort by distance of the worker's free day from today,
farthest first. -/
def getAvailablePharmacists (pharmacists : List Pharmacist) (dayName : String)
    (weekNumber : ℕ) (weeklyHours : List (String × ℚ)) : List Pharmacist :=
  let filtered := pharmacists.filter (fun pharmacist =>
    if isFreeDay pharmacist dayName then false
    else if dayName == "Saturday" && pharmacist.freeSaturdayWeek == some weekNumber then
      false
    else if pharmacist.weeklyHours ≥ 40 then
      let remaining := lookupD weeklyHours pharmacist.id 0
      let daysWorked : ℤ := ⌊(pharmacist.weeklyHours - remaining) / 8⌋
      if 5 - daysWorked ≤ 0 then false
      else if remaining < 8 then false
      else true
    else true)
  stableSortByCmp (fun a b =>
    ((|indexOfStr dayOrder (freeDayOrDefault b) - indexOfStr dayOrder dayName| : ℤ) : ℚ) -
      ((|indexOfStr dayOrder (freeDayOrDefault a) - indexOfStr dayOrder dayName| : ℤ) : ℚ))
    filtered

/-- The state threaded through the day loop of
`generateWeekScheduleWithRotation` (lines 2299-2344). -/
structure WeekLoopState where
  shifts : List Shift
  weeklyHours : List (String × ℚ)
  rotation : List (String × RotState)
  daysRemaining : List (String × ℤ)
deriving Repr

/-- One day of `generateWeekScheduleWithRotation` (lines 2319-2344): skip
the day when fewer than 3 pharmacists are available, otherwise append the
day's generated shifts and carry the updated ledgers. -/
def weekDayStep (rules : PharmacyRules) (pharmacists : List Pharmacist)
    (weekStart weekNumber : ℕ) (st : WeekLoopState) (dayIndex : ℕ) : WeekLoopState :=
  let dayName := dayNamesMonFirst.getD dayIndex ""
  let availablePharmacists := getAvailablePharmacists pharmacists dayName weekNumber
    st.weeklyHours
  if availablePharmacists.length < 3 then st
  else
    let r := generateDayShifts rules (weekStart + dayIndex) availablePharmacists
      st.weeklyHours st.rotation dayName (some st.daysRemaining) none
    { shifts := st.shifts ++ r.shifts, weeklyHours := r.weeklyHours,
      rotation := r.rotation, daysRemaining := r.daysRemaining.getD st.daysRemaining }

/-- `generateWeekScheduleWithRotation` (data-export.ts lines 2294-2352):
fresh hour and remaining-days ledgers, then the six-day loop; `pharmacists`
is the constructor-filtered active list (`this.pharmacists`). -/
def generateWeekScheduleWithRotation (rules : PharmacyRules)
    (pharmacists : List Pharmacist) (weekStart : ℕ) (weekNumber : ℕ)
    (patternRotationTracker : List (String × RotState)) : Schedule :=
  let weeklyHours₀ := pharmacists.foldl (fun acc p => setEntry acc p.id p.weeklyHours) []
  let final := (List.range 6).foldl (weekDayStep rules pharmacists weekStart weekNumber)
    { shifts := [], weeklyHours := weeklyHours₀, rotation := patternRotationTracker,
      daysRemaining := initPartTimeWorkingDaysRemaining pharmacists }
  { id := s!"schedule_{weekStart}", weekStart := weekStart, weekEnd := weekStart + 5,
    shifts := final.shifts }

/-- The constructor of `ScheduleGenerator` (line 92): only active
pharmacists are kept. -/
def scheduleGeneratorActive (workers : List Pharmacist) : List Pharmacist :=
  workers.filter (fun p => p.isActive)

/-- Every synthesized shift carries the day's date. -/
theorem synthesizeShifts_dates (rules : PharmacyRules) (dateStr : ℕ) (a : Assignment) :
    ∀ sh ∈ (synthesizeShifts rules dateStr a).1, sh.date = dateStr := by
  intro sh hsh
  unfold synthesizeShifts at hsh
  rcases a with ⟨ph, ty, s, e, pid⟩
  cases ty <;> simp only [] at hsh <;> split_ifs at hsh <;>
    (simp only [List.mem_append, List.mem_singleton, List.not_mem_nil,
      or_false, false_or] at hsh) <;>
    (rcases hsh with rfl | rfl <;> rfl)

/-- One assignment step only appends shifts dated with the day's date. -/
theorem processAssignment_fst (rules : PharmacyRules) (dateStr : ℕ)
    (acc : List Shift × List (String × ℚ)) (a : Assignment) :
    (processAssignment rules dateStr acc a).1 =
      acc.1 ++ (synthesizeShifts rules dateStr a).1 := by
  simp only [processAssignment]
  split_ifs <;> rfl

/-- The assignment fold only appends shifts dated with the day's date. -/
theorem processAssignment_fold_dates (rules : PharmacyRules) (dateStr : ℕ) :
    ∀ (as : List Assignment) (acc : List Shift × List (String × ℚ)),
    (∀ sh ∈ acc.1, sh.date = dateStr) →
    ∀ sh ∈ (as.foldl (processAssignment rules dateStr) acc).1, sh.date = dateStr := by
  intro as
  induction as with
  | nil => intro acc hacc; exact hacc
  | cons a rest ih =>
    intro acc hacc
    rw [List.foldl_cons]
    apply ih
    intro sh hsh
    rw [processAssignment_fst] at hsh
    rcases List.mem_append.mp hsh with h | h
    · exact hacc sh h
    · exact synthesizeShifts_dates rules dateStr a sh h

/-- Every shift generated for a day carries that day's date. -/
theorem generateDayShifts_dates (rules : PharmacyRules) (date : ℕ)
    (avail : List Pharmacist) (wh : List (String × ℚ))
    (rot : List (String × RotState)) (dayName : String)
    (dr : Option (List (String × ℤ)))
    (pu : Option (List (String × List (String × ℕ)))) :
    ∀ sh ∈ (generateDayShifts rules date avail wh rot dayName dr pu).shifts,
      sh.date = date := by
  unfold generateDayShifts
  exact processAssignment_fold_dates rules date _ ([], wh) (by simp)

/-- Stable insertion grows the length by one. -/
theorem stableInsertByCmp_length {α : Type} (cmp : α → α → ℚ) (x : α) :
    ∀ l : List α, (stableInsertByCmp cmp x l).length = l.length + 1 := by
  intro l
  induction l with
  | nil => rfl
  | cons y ys ih =>
    rw [stableInsertByCmp]
    split_ifs <;> simp [ih]

/-- Stable sorting preserves the length. -/
theorem stableSortByCmp_length {α : Type} (cmp : α → α → ℚ) (l : List α) :
    (stableSortByCmp cmp l).length = l.length := by
  unfold stableSortByCmp
  suffices h : ∀ (l : List α) (acc : List α),
      (l.foldl (fun acc x => stableInsertByCmp cmp x acc) acc).length =
        acc.length + l.length by
    simpa using h l []
  intro l
  induction l with
  | nil => intro acc; simp
  | cons x xs ih =>
    intro acc
    rw [List.foldl_cons, ih, stableInsertByCmp_length, List.length_cons]
    omega

/-- Filtering with a stronger predicate yields a shorter list. -/
theorem length_filter_mono {α : Type} (p q : α → Bool)
    (h : ∀ a, p a = true → q a = true) :
    ∀ l : List α, (l.filter p).length ≤ (l.filter q).length := by
  intro l
  induction l with
  | nil => simp
  | cons x xs ih =>
    rw [List.filter_cons, List.filter_cons]
    by_cases hp : p x = true
    · rw [hp, h x hp]
      simpa using ih
    · rw [Bool.eq_false_iff.mpr hp]
      cases hq : q x
      · exact ih
      · simpa using Nat.le_succ_of_le ih

/-- The code's availability filter implies the claim's coarser filter
(inactive, free-day and Saturday-rotation exclusions). -/
theorem getAvailable_length_le (pharmacists : List Pharmacist) (dayName : String)
    (weekNumber : ℕ) (wh : List (String × ℚ)) :
    (getAvailablePharmacists pharmacists dayName weekNumber wh).length ≤
      (pharmacists.filter (fun w => !(isFreeDay w dayName) &&
        !(dayName == "Saturday" && w.freeSaturdayWeek == some weekNumber))).length := by
  unfold getAvailablePharmacists
  rw [stableSortByCmp_length]
  apply length_filter_mono
  intro w hw
  simp only [] at hw
  split_ifs at hw with h₁ h₂ h₃ h₄ h₅ <;> simp_all <;> tauto

/-- A day step never adds shifts dated with a day whose availability is
below the 3-worker minimum for every ledger state. -/
theorem weekDayStep_preserves_no_date (rules : PharmacyRules)
    (pharmacists : List Pharmacist) (weekStart weekNumber dayIndex : ℕ)
    (hskip : ∀ wh, (getAvailablePharmacists pharmacists
      (dayNamesMonFirst.getD dayIndex "") weekNumber wh).length < 3)
    (st : WeekLoopState) (j : ℕ)
    (hst : ∀ sh ∈ st.shifts, sh.date ≠ weekStart + dayIndex) :
    ∀ sh ∈ (weekDayStep rules pharmacists weekStart weekNumber st j).shifts,
      sh.date ≠ weekStart + dayIndex := by
  intro sh hsh
  simp only [weekDayStep] at hsh
  by_cases hj : j = dayIndex
  · subst hj
    rw [if_pos (hskip st.weeklyHours)] at hsh
    exact hst sh hsh
  · split_ifs at hsh
    · exact hst sh hsh
    · rcases List.mem_append.mp hsh with h | h
      · exact hst sh h
      · have hd := generateDayShifts_dates rules (weekStart + j) _ _ _ _ _ _ sh h
        omega

/-- C7 (confirmed, first part): for every day on which fewer than 3 workers
remain after excluding inactive workers, workers on their free day and
Saturday-rotation exclusions, rotation-based week generation adds no shift
dated that day.  (The code excludes strictly more workers — full-time
workers low on hours — so its available list is never longer than the
claim's; the generation itself is a total function, so no business-rule
conflict can raise an exception: conflicts surface only as validator
warning strings.) -/
theorem c7_understaffed_day_has_no_shifts (rules : PharmacyRules)
    (workers : List Pharmacist) (weekStart weekNumber : ℕ)
    (tracker : List (String × RotState)) (dayIndex : ℕ)
    (hfew : (workers.filter (fun w => w.isActive &&
        (!(isFreeDay w (dayNamesMonFirst.getD dayIndex "")) &&
         !(dayNamesMonFirst.getD dayIndex "" == "Saturday" &&
           w.freeSaturdayWeek == some weekNumber)))).length < 3) :
    ∀ sh ∈ (generateWeekScheduleWithRotation rules (scheduleGeneratorActive workers)
        weekStart weekNumber tracker).shifts, sh.date ≠ weekStart + dayIndex := by
  have hskip : ∀ wh, (getAvailablePharmacists (scheduleGeneratorActive workers)
      (dayNamesMonFirst.getD dayIndex "") weekNumber wh).length < 3 := by
    intro wh
    refine lt_of_le_of_lt ((getAvailable_length_le _ _ _ _).trans ?_) hfew
    rw [scheduleGeneratorActive, List.filter_filter]
    refine le_of_eq (congrArg List.length (List.filter_congr ?_))
    intro a _
    exact Bool.and_comm _ _
  unfold generateWeekScheduleWithRotation
  suffices hfold : ∀ (days : List ℕ) (st : WeekLoopState),
      (∀ sh ∈ st.shifts, sh.date ≠ weekStart + dayIndex) →
      ∀ sh ∈ (days.foldl (weekDayStep rules (scheduleGeneratorActive workers)
        weekStart weekNumber) st).shifts, sh.date ≠ weekStart + dayIndex by
    exact hfold (List.range 6) _ (by simp)
  intro days
  induction days with
  | nil => intro st hst; exact hst
  | cons j rest ih =>
    intro st hst
    rw [List.foldl_cons]
    exact ih _ (weekDayStep_preserves_no_date rules _ weekStart weekNumber dayIndex
      hskip st j hst)

/-- Two active full-time workers — every day is below the 3-worker minimum. -/
def c7Workers : List Pharmacist :=
  [{ id := "w1", name := "A", weeklyHours := 40, freeDay := "",
     freeSaturdayWeek := none, isActive := true, fixedDayPatterns := none },
   { id := "w2", name := "B", weeklyHours := 40, freeDay := "",
     freeSaturdayWeek := none, isActive := true, fixedDayPatterns := none }]

/-- Witness for `c7_understaffed_day_has_no_shifts`: with only two workers,
Monday of the generated week carries no shifts. -/
theorem c7_understaffed_day_has_no_shifts_witness :
    ((generateWeekScheduleWithRotation c10Rules
        (scheduleGeneratorActive c7Workers) 50 0 []).shifts.all
      (fun sh => sh.date != 50 + 0)) = true := by
  have h := c7_understaffed_day_has_no_shifts c10Rules c7Workers 50 0 [] 0
    (by with_unfolding_all decide)
  exact List.all_eq_true.mpr (fun sh hsh => bne_iff_ne.mpr (h sh hsh))

/-- The single pattern of the C1 failing input: a 30-minute morning window
late in the day (10:30-11:00) and a 15-minute afternoon window. -/
def c1Pattern : FixedShiftPattern :=
  { id := "p1", name := "P1", morningShift := ⟨630, 660⟩,
    afternoonShift := ⟨690, 705⟩ }

/-- The C1 failing rules: pharmacy open 09:00-12:00 — a 3-hour span, ample
for a 2-hour block. -/
def c1Rules : PharmacyRules :=
  { openingTime := 540, closingTime := 720, breakStartTime := 570,
    breakEndTime := 600, maxHoursPerShift := 8, maxHoursPerDay := 10,
    fixedShiftPatterns := some [c1Pattern], staffingRequirements := [] }

/-- Three active full-time workers for the C1 failing input. -/
def c1Workers : List Pharmacist :=
  [{ id := "w1", name := "A", weeklyHours := 40, freeDay := "",
     freeSaturdayWeek := none, isActive := true, fixedDayPatterns := none },
   { id := "w2", name := "B", weeklyHours := 40, freeDay := "",
     freeSaturdayWeek := none, isActive := true, fixedDayPatterns := none },
   { id := "w3", name := "C", weeklyHours := 40, freeDay := "",
     freeSaturdayWeek := none, isActive := true, fixedDayPatterns := none }]

/-- Rotation cursors at pattern 0 for the three C1 workers. -/
def c1Tracker : List (String × RotState) :=
  [("w1", ⟨0, []⟩), ("w2", ⟨0, []⟩), ("w3", ⟨0, []⟩)]

set_option maxRecDepth 8000 in
/-- C1 (code bug): the pharmacy span (3 h) allows a 2-hour block, yet the
generated week contains a morning shift of 0.5 h (10:30-11:00).  In the
morning branch of `generateDayShifts` that cannot extend forward, the
source intends a 2-hour shift from opening time — its log prints exactly
that — but assigns only `actualEndTime`, leaving the `const`
`actualStartTime` at the original late start, so the pushed shift is
shorter than 2 h (and 2 h are still deducted from the worker's ledger). -/
theorem c1_short_morning_shift_in_schedule :
    c1Rules.closingTime - c1Rules.openingTime ≥ 2 * 60 ∧
    ∃ sh ∈ (generateWeekScheduleWithRotation c1Rules c1Workers 0 0 c1Tracker).shifts,
      sh.type = ShiftType.morning ∧ calculateShiftHours sh.startTime sh.endTime < 2 := by
  constructor
  · with_unfolding_all decide
  · with_unfolding_all decide

/-- Total number of warnings of a warnings map
(`Object.values(...).reduce((sum, w) => sum + w.length, 0)`, lines
2203-2206 and 2261-2264). -/
def totalWarningCount (warnings : List (ℕ × List String)) : ℕ :=
  (warnings.map (fun e => e.2.length)).sum

/-- `id.split('').reduce((h, c) => h + c.charCodeAt(0), 0)` (line 2245).
JavaScript sums UTF-16 code units; for strings within the Basic
Multilingual Plane — all identifiers here — this equals the code-point
sum. -/
def charCodeSum (s : String) : ℕ :=
  (s.data.map Char.toNat).sum

/-- One resolver attempt's fresh `patternRotationTracker` (lines
2228-2254): a reassignable pharmacist starts at
`(pharmacistIndex + patternOffset + attempt) % patterns.length` with
`patternOffset = floor(attempt / reassignable.length) % patterns.length`;
any other pharmacist starts at its id's character-code sum modulo the
pattern count. -/
def buildRotationTracker (pharmacists reassignable : List Pharmacist)
    (numPatterns : ℕ) (attempt : ℕ) : List (String × RotState) :=
  pharmacists.foldl (fun acc ph =>
    if reassignable.any (fun p => p.id == ph.id) then
      let pharmacistIndex := reassignable.findIdx (fun p => p.id == ph.id)
      let patternOffset := (attempt / reassignable.length) % numPatterns
      setEntry acc ph.id ⟨(pharmacistIndex + patternOffset + attempt) % numPatterns, []⟩
    else
      setEntry acc ph.id ⟨charCodeSum ph.id % numPatterns, []⟩) []

/-- The test schedule generated by one resolver attempt (line 2257). -/
def resolveAttempt (rules : PharmacyRules) (pharmacists reassignable : List Pharmacist)
    (numPatterns weekStart weekNumber attempt : ℕ) : Schedule :=
  generateWeekScheduleWithRotation rules pharmacists weekStart weekNumber
    (buildRotationTracker pharmacists reassignable numPatterns attempt)

/-- The resolver's attempt loop (lines 2225-2278), recursing over the
remaining attempt indices: a test schedule replaces the best one only when
its warning count is strictly smaller, and a zero-warning schedule ends
the loop at once (the `break` of line 2275). -/
def tryResolveLoop (rules : PharmacyRules) (pharmacists reassignable : List Pharmacist)
    (numPatterns weekStart weekNumber : ℕ) :
    List ℕ → Option Schedule → ℕ → Option Schedule × ℕ
  | [], best, bestCount => (best, bestCount)
  | a :: rest, best, bestCount =>
    let testSchedule := resolveAttempt rules pharmacists reassignable numPatterns
      weekStart weekNumber a
    let testCount := totalWarningCount (validateSchedule rules pharmacists testSchedule)
    if testCount < bestCount then
      if testCount = 0 then (some testSchedule, testCount)
      else tryResolveLoop rules pharmacists reassignable numPatterns weekStart weekNumber
        rest (some testSchedule) testCount
    else tryResolveLoop rules pharmacists reassignable numPatterns weekStart weekNumber
      rest best bestCount

/-- `tryResolveWarnings` (lines 2192-2288): `null` without fixed shift
patterns; otherwise the best schedule found over at most
`min(patterns.length * reassignable.length * 2, 50)` attempts, starting
from no best schedule and the original warning count (possibly still
`null`). -/
def tryResolveWarnings (rules : PharmacyRules) (pharmacists : List Pharmacist)
    (weekStart weekNumber : ℕ) (originalWarnings : List (ℕ × List String)) :
    Option Schedule :=
  match rules.fixedShiftPatterns with
  | none => none
  | some patterns =>
    if patterns.length = 0 then none
    else
      let reassignable := pharmacists.filter (fun p =>
        match p.fixedDayPatterns with
        | none => true
        | some l => l.isEmpty)
      let maxAttempts := min (patterns.length * reassignable.length * 2) 50
      (tryResolveLoop rules pharmacists reassignable patterns.length weekStart weekNumber
        (List.range maxAttempts) none (totalWarningCount originalWarnings)).1

/-- The per-week caller fragment of `generateSchedule` (lines 136-156):
validate the freshly generated schedule; when any day carries a warning,
run `tryResolveWarnings` and, if it returns a schedule, adopt it together
with its re-validated warnings; the pair returned is the schedule stored
with its `warnings` field. -/
def resolveWeek (rules : PharmacyRules) (pharmacists : List Pharmacist)
    (weekStart weekNumber : ℕ) (schedule : Schedule) :
    Schedule × List (ℕ × List String) :=
  let warnings := validateSchedule rules pharmacists schedule
  if warnings.any (fun dw => 0 < dw.2.length) then
    match tryResolveWarnings rules pharmacists weekStart weekNumber warnings with
    | some best => (best, validateSchedule rules pharmacists best)
    | none => (schedule, warnings)
  else (schedule, warnings)

/-- Loop invariant of `tryResolveLoop`: when the stored best schedule
re-validates to the stored count, the final count never exceeds the
starting one and the final best schedule (when present) re-validates to
the final count. -/
theorem tryResolveLoop_spec (rules : PharmacyRules)
    (pharmacists reassignable : List Pharmacist)
    (numPatterns weekStart weekNumber : ℕ) (attempts : List ℕ) :
    ∀ (best : Option Schedule) (bestCount : ℕ),
      (∀ S, best = some S →
        totalWarningCount (validateSchedule rules pharmacists S) = bestCount) →
      (tryResolveLoop rules pharmacists reassignable numPatterns weekStart weekNumber
          attempts best bestCount).2 ≤ bestCount ∧
      ∀ S, (tryResolveLoop rules pharmacists reassignable numPatterns weekStart weekNumber
          attempts best bestCount).1 = some S →
        totalWarningCount (validateSchedule rules pharmacists S) =
          (tryResolveLoop rules pharmacists reassignable numPatterns weekStart weekNumber
            attempts best bestCount).2 := by
  induction attempts with
  | nil =>
    intro best bestCount hbest
    simp only [tryResolveLoop]
    exact ⟨le_refl _, hbest⟩
  | cons a rest ih =>
    intro best bestCount hbest
    simp only [tryResolveLoop]
    split_ifs with h₁ h₂
    · refine ⟨le_of_lt h₁, fun S hS => ?_⟩
      cases hS
      rfl
    · obtain ⟨hle, hval⟩ := ih (some (resolveAttempt rules pharmacists reassignable
        numPatterns weekStart weekNumber a))
        (totalWarningCount (validateSchedule rules pharmacists
          (resolveAttempt rules pharmacists reassignable numPatterns weekStart weekNumber a)))
        (fun S hS => by cases hS; rfl)
      exact ⟨le_trans hle (le_of_lt h₁), hval⟩
    · exact ih best bestCount hbest

/-- C3 (confirmed): for a week whose initial schedule validates with at
least one warning, the schedule stored by `generateSchedule` after the
resolver pass — re-validated if the resolver returned one — has a total
warning count no larger than the initial schedule's: the loop replaces its
best schedule only on a strict decrease from the original count, and
`validateSchedule` is deterministic, so re-validation reproduces the
count the loop measured. -/
theorem c3_resolver_never_increases_warnings (rules : PharmacyRules)
    (pharmacists : List Pharmacist) (weekStart weekNumber : ℕ) (schedule : Schedule)
    (h : (validateSchedule rules pharmacists schedule).any (fun dw => 0 < dw.2.length)) :
    totalWarningCount (resolveWeek rules pharmacists weekStart weekNumber schedule).2 ≤
      totalWarningCount (validateSchedule rules pharmacists schedule) := by
  simp only [resolveWeek]
  rw [if_pos h]
  cases htry : tryResolveWarnings rules pharmacists weekStart weekNumber
      (validateSchedule rules pharmacists schedule) with
  | none => exact le_refl _
  | some best =>
    simp only [tryResolveWarnings] at htry
    split at htry
    · exact Option.noConfusion htry
    rename_i patterns hpat
    split_ifs at htry with hlen
    have hspec := tryResolveLoop_spec rules pharmacists
      (pharmacists.filter (fun p =>
        match p.fixedDayPatterns with
        | none => true
        | some l => l.isEmpty))
      patterns.length weekStart weekNumber
      (List.range (min (patterns.length *
        (pharmacists.filter (fun p =>
          match p.fixedDayPatterns with
          | none => true
          | some l => l.isEmpty)).length * 2) 50))
      none (totalWarningCount (validateSchedule rules pharmacists schedule))
      (fun S hS => by cases hS)
    show totalWarningCount (validateSchedule rules pharmacists best) ≤ _
    rw [hspec.2 best htry]
    exact hspec.1

/-- A schedule with one under-length morning shift — its initial
validation carries a warning. -/
def c3Schedule : Schedule :=
  { id := "s", weekStart := 0, weekEnd := 5,
    shifts := [{ id := "sh1", pharmacistId := "w1", date := 0, startTime := 540,
                 endTime := 600, type := ShiftType.morning, isBreakTime := false,
                 patternId := none }] }

/-- Witness for `c3_resolver_never_increases_warnings` at a concrete
understaffed input: the initial schedule has a short-shift warning and the
stored week never has more warnings than it. -/
theorem c3_resolver_never_increases_warnings_witness :
    totalWarningCount (resolveWeek c1Rules (scheduleGeneratorActive c7Workers)
        0 0 c3Schedule).2 ≤
      totalWarningCount (validateSchedule c1Rules (scheduleGeneratorActive c7Workers)
        c3Schedule) :=
  c3_resolver_never_increases_warnings c1Rules (scheduleGeneratorActive c7Workers)
    0 0 c3Schedule (by with_unfolding_all decide)

end TPM
